import Mathlib

/-!
# easytcp: router dispatch, session registry and datagram server

A shallow embedding of `router.go`, `session/manager.go` and
`server/udp_server.go`.

* A Go function value that may have effects is a state-passing function over a
  world `σ` (whatever the closures of the handlers and middlewares can touch).
  An `error` result is `Option GoError`, `none` standing for `nil`. The tables
  of the router are not part of that world: registration is complete before
  dispatch begins, as the spec requires of the caller. Handlers and middlewares
  are total: a call that panics or never returns is outside the model.
* A nullable function or interface value is an `Option`; `none` is `nil`.
* A Go slice is a `Slice`: the elements below its length and the cells of the
  backing array between its length and its capacity, so that the in-place
  writes of `append` are part of the model.
* A Go map is a function from keys to `Option` values. Keys come from a type
  with decidable equality (the comparable, hashable identifiers of the spec).
* The tables of `Router` are only written by `register`, `registerMiddleware`
  and `setNotFoundHandler`, which never store a nil function; the stored
  values are therefore typed as non-nil functions.
* Tasks that run side by side are a list of tasks and a schedule that says
  which of them takes the next step; `sync.Once.Do` is one step, as the
  standard library documents it.
* A call that may panic returns an `Outcome`. A `chan struct{}` that is only
  ever closed is `armed` or `fired`.
* The accept loop of the server is run over the list of answers that the
  socket gives to its reads; a started task keeps the slice it was handed,
  which is a view of the buffer of the loop.
-/

namespace EasyTcp

/-! ## Slices -/

/-- A Go slice seen from its first element: `elems` are the elements below the
length, `spare` the cells of the backing array from the length up to the
capacity (`none` is a zeroed cell). -/
structure Slice (α : Type) where
  elems : List α
  spare : List (Option α)

/-- The builtin `len`. -/
def Slice.len {α : Type} (s : Slice α) : Nat := s.elems.length

/-- The builtin `cap`. -/
def Slice.cap {α : Type} (s : Slice α) : Nat := s.elems.length + s.spare.length

/-- The nil slice: length and capacity zero. -/
def nilSlice {α : Type} : Slice α := ⟨[], []⟩

/-- The builtin `make([]T, 0, n)`: no elements, `n` zeroed cells. -/
def makeSlice {α : Type} (n : Nat) : Slice α := ⟨[], List.replicate n none⟩

/-- The builtin `append(s, vs...)`. The first component is the slice returned;
the second is what the header `s` itself denotes afterwards, since the two share
a backing array when the capacity of `s` suffices. `growCap oldCap needed` is the
capacity the runtime picks when it has to reallocate (never taken below
`needed`). -/
def goAppend {α : Type} (growCap : Nat → Nat → Nat) (s : Slice α) (vs : List α) :
    Slice α × Slice α :=
  if vs.length ≤ s.spare.length then
    (⟨s.elems ++ vs, s.spare.drop vs.length⟩,
     ⟨s.elems, vs.map some ++ s.spare.drop vs.length⟩)
  else
    let needed := s.elems.length + vs.length
    let newCap := max needed (growCap s.cap needed)
    (⟨s.elems ++ vs, List.replicate (newCap - needed) none⟩, s)

/-! ## Router -/

/-- The `error` values. -/
abbrev GoError := String

/-- Modelled from the spec: the request entry is declared outside the files
under study; the router reads only its identifier. -/
structure Entry (ι : Type) where
  ID : ι
  Data : List Nat

/-- Modelled from the spec: the route context is declared outside the files
under study; the router reads only its request entry, which may be nil. -/
structure routeContext (ι : Type) where
  reqEntry : Option (Entry ι)

/-- The source's `type HandlerFunc func(ctx Context) error`. -/
abbrev HandlerFunc (ι σ : Type) : Type := routeContext ι → σ → Option GoError × σ

/-- The source's `type MiddlewareFunc func(next HandlerFunc) HandlerFunc`; the
call that builds the wrapped handler may itself have effects. -/
abbrev MiddlewareFunc (ι σ : Type) : Type := HandlerFunc ι σ → σ → HandlerFunc ι σ × σ

/-- The source's `Router` struct. -/
structure Router (ι σ : Type) where
  handlerMapper : ι → Option (HandlerFunc ι σ)
  middlewaresMapper : ι → Option (Slice (MiddlewareFunc ι σ))
  globalMiddlewares : Slice (MiddlewareFunc ι σ)
  notFoundHandler : Option (HandlerFunc ι σ)

/-- The source's `newRouter`: two empty maps, nil global slice, nil fallback. -/
def newRouter {ι σ : Type} : Router ι σ :=
  { handlerMapper := fun _ => none
    middlewaresMapper := fun _ => none
    globalMiddlewares := nilSlice
    notFoundHandler := none }

/-- The source's `nilHandler`: returns nil, touches nothing. -/
def nilHandler {ι σ : Type} : HandlerFunc ι σ := fun _ w => (none, w)

/-- The loop of `wrapHandlers`, `for i := len(middles) - 1; i >= 0; i--`: the
counter `n` is `i + 1`. The `none` branch is an index out of range, which the
loop bounds exclude. -/
def wrapLoop {ι σ : Type} (middles : List (MiddlewareFunc ι σ)) :
    Nat → HandlerFunc ι σ → σ → HandlerFunc ι σ × σ
  | 0, wrapped, w => (wrapped, w)
  | n + 1, wrapped, w =>
    match middles[n]? with
    | some m =>
      let p := m wrapped w
      wrapLoop middles n p.1 p.2
    | none => (wrapped, w)

/-- The source's `Router.wrapHandlers`. -/
def Router.wrapHandlers {ι σ : Type} (r : Router ι σ) (handler : Option (HandlerFunc ι σ))
    (middles : Slice (MiddlewareFunc ι σ)) (w : σ) : HandlerFunc ι σ × σ :=
  let handler := match handler with
    | some h => some h
    | none => r.notFoundHandler
  let handler := match handler with
    | some h => h
    | none => nilHandler
  wrapLoop middles.elems middles.len handler w

/-- The source's `Router.handleRequest`. The result is the error returned, the
world after the call, and the router after the call (its global slice shares a
backing array with the list built by `append`). -/
def Router.handleRequest {ι σ : Type} (growCap : Nat → Nat → Nat) (r : Router ι σ)
    (ctx : routeContext ι) (w : σ) : (Option GoError × σ) × Router ι σ :=
  match ctx.reqEntry with
  | none => ((none, w), r)
  | some e =>
    let handler := r.handlerMapper e.ID
    let q : Slice (MiddlewareFunc ι σ) × Router ι σ :=
      match r.middlewaresMapper e.ID with
      | some v =>
        let a := goAppend growCap r.globalMiddlewares v.elems
        (a.1, { r with globalMiddlewares := a.2 })
      | none => (r.globalMiddlewares, r)
    let p := q.2.wrapHandlers handler q.1 w
    (p.1 ctx p.2, q.2)

/-- The first loop of `register`: `ms := make([]MiddlewareFunc, 0, len(m))`,
then every non-nil element of `m` is appended to `ms`. -/
def collectMiddlewares {α : Type} (growCap : Nat → Nat → Nat) (m : List (Option α)) : Slice α :=
  m.foldl (fun ms mm => match mm with
    | some f => (goAppend growCap ms [f]).1
    | none => ms) (makeSlice m.length)

/-- The source's `Router.register`. -/
def Router.register {ι σ : Type} [DecidableEq ι] (growCap : Nat → Nat → Nat) (r : Router ι σ)
    (id : ι) (h : Option (HandlerFunc ι σ)) (m : List (Option (MiddlewareFunc ι σ))) :
    Router ι σ :=
  let r1 := match h with
    | some f => { r with handlerMapper := Function.update r.handlerMapper id (some f) }
    | none => r
  let ms := collectMiddlewares growCap m
  if ms.len ≠ 0 then
    { r1 with middlewaresMapper := Function.update r1.middlewaresMapper id (some ms) }
  else r1

/-- The source's `Router.registerMiddleware`. -/
def Router.registerMiddleware {ι σ : Type} (growCap : Nat → Nat → Nat) (r : Router ι σ)
    (m : List (Option (MiddlewareFunc ι σ))) : Router ι σ :=
  m.foldl (fun r mm => match mm with
    | some f => { r with globalMiddlewares := (goAppend growCap r.globalMiddlewares [f]).1 }
    | none => r) r

/-- The source's `Router.setNotFoundHandler`. -/
def Router.setNotFoundHandler {ι σ : Type} (r : Router ι σ) (handler : Option (HandlerFunc ι σ)) :
    Router ι σ :=
  { r with notFoundHandler := handler }

/-- The per-identifier middlewares that `handleRequest` reads for `id`: the
elements of the stored slice, or nothing when the table has no entry. -/
def Router.middlewaresOf {ι σ : Type} (r : Router ι σ) (id : ι) : List (MiddlewareFunc ι σ) :=
  match r.middlewaresMapper id with
  | some v => v.elems
  | none => []

/-! ## What the spec says of dispatch -/

/-- The composition `m1(m2(...mn(h)))` of the spec, as a right fold of the
middleware list over the handler: the innermost application is made first. -/
def chain {ι σ : Type} (h : HandlerFunc ι σ) (ms : List (MiddlewareFunc ι σ)) :
    σ → HandlerFunc ι σ × σ :=
  ms.foldr (fun m acc w => let p := acc w; m p.1 p.2) (fun w => (h, w))

/-- Dispatch as the spec has it: compose the chain, then call it with the
context. -/
def runChain {ι σ : Type} (h : HandlerFunc ι σ) (ms : List (MiddlewareFunc ι σ))
    (ctx : routeContext ι) (w : σ) : Option GoError × σ :=
  (chain h ms w).1 ctx (chain h ms w).2

/-- The fallback chain of the spec: the bound handler, else the not-found
handler, else the handler that always succeeds. -/
def resolveHandler {ι σ : Type} (bound notFound : Option (HandlerFunc ι σ)) : HandlerFunc ι σ :=
  match bound, notFound with
  | some h, _ => h
  | none, some f => f
  | none, none => nilHandler

/-- A middleware is pass-through when building the wrapped handler has no
effect and the wrapped handler is `next` itself: `m(next)(ctx) = next(ctx)`. -/
def PassThrough {ι σ : Type} (m : MiddlewareFunc ι σ) : Prop :=
  ∀ (next : HandlerFunc ι σ) (w : σ),
    (m next w).2 = w ∧ ∀ (ctx : routeContext ι) (w1 : σ), (m next w).1 ctx w1 = next ctx w1

/-- What a recording middleware or handler writes to the log. -/
inductive Event (τ : Type) where
  | enter : τ → Event τ
  | leave : τ → Event τ
  deriving DecidableEq, Repr

/-- A middleware that logs its entry, calls `next`, logs its exit and hands the
result of `next` on. -/
def recordMiddleware {ι τ : Type} (t : τ) : MiddlewareFunc ι (List (Event τ)) :=
  fun next w =>
    (fun ctx w1 =>
      let p := next ctx (w1 ++ [Event.enter t])
      (p.1, p.2 ++ [Event.leave t]), w)

/-- A handler that logs its entry and its exit and returns `res`. -/
def recordHandler {ι τ : Type} (t : τ) (res : Option GoError) : HandlerFunc ι (List (Event τ)) :=
  fun _ w => (res, w ++ [Event.enter t, Event.leave t])

/-- A middleware that refuses every request without calling `next`. -/
def denyMiddleware {ι σ : Type} : MiddlewareFunc ι σ :=
  fun _ w => (fun _ w1 => (some "denied", w1), w)

/-- A handler that counts its invocations in the world and returns `res`. -/
def countingHandler {ι : Type} (res : Option GoError) : HandlerFunc ι Nat :=
  fun _ n => (res, n + 1)

/-! ## Session registry -/

/-- Modelled from the spec: the `Session` interface is declared outside the
files under study; the registry uses only its identifier accessor `ID()`. -/
class SessionLike (S : Type) where
  ID : S → String

/-- The standard library's `sync.Map` without concurrent access: its entries,
one per key. The order of the list is the order in which `Range` walks them,
which the library leaves open: every order is a state of the model. -/
structure SyncMap (κ ν : Type) where
  entries : List (κ × ν)
  nodup : (entries.map Prod.fst).Nodup

/-- The zero value of `sync.Map`: empty. -/
def SyncMap.empty {κ ν : Type} : SyncMap κ ν := ⟨[], List.nodup_nil⟩

/-- The method `sync.Map.Load`. -/
def SyncMap.Load {κ ν : Type} [DecidableEq κ] (m : SyncMap κ ν) (k : κ) : Option ν :=
  (m.entries.find? (fun p => decide (p.1 = k))).map Prod.snd

/-- The method `sync.Map.Store`: the entry for `k` is replaced or added. -/
def SyncMap.Store {κ ν : Type} [DecidableEq κ] (m : SyncMap κ ν) (k : κ) (v : ν) : SyncMap κ ν :=
  { entries := (k, v) :: m.entries.filter (fun p => decide (p.1 ≠ k))
    nodup := by
      have h := m.nodup
      rw [List.map_cons, List.nodup_cons]
      refine ⟨?_, List.Nodup.sublist ((List.filter_sublist _).map _) h⟩
      simp [List.mem_map, List.mem_filter] }

/-- The method `sync.Map.Delete`: the entry for `k`, if any, is dropped. -/
def SyncMap.Delete {κ ν : Type} [DecidableEq κ] (m : SyncMap κ ν) (k : κ) : SyncMap κ ν :=
  { entries := m.entries.filter (fun p => decide (p.1 ≠ k))
    nodup := List.Nodup.sublist ((List.filter_sublist _).map _) m.nodup }

/-- The walk of `sync.Map.Range` over the entries: `f` is called on one entry
after the other until it returns false. -/
def rangeList {κ ν σ : Type} (f : κ → ν → σ → Bool × σ) : List (κ × ν) → σ → σ
  | [], w => w
  | p :: rest, w =>
    let q := f p.1 p.2 w
    if q.1 then rangeList f rest q.2 else q.2

/-- The method `sync.Map.Range`. -/
def SyncMap.Range {κ ν σ : Type} (m : SyncMap κ ν) (f : κ → ν → σ → Bool × σ) (w : σ) : σ :=
  rangeList f m.entries w

/-- The source's `Manager` struct. -/
structure Manager (S : Type) where
  Sessions : SyncMap String S

/-- The source's `Manager.Add`. -/
def Manager.Add {S : Type} [SessionLike S] (m : Manager S) (s : Option S) : Manager S :=
  match s with
  | none => m
  | some x => { Sessions := m.Sessions.Store (SessionLike.ID x) x }

/-- The source's `Manager.Remove`. -/
def Manager.Remove {S : Type} (m : Manager S) (id : String) : Manager S :=
  { Sessions := m.Sessions.Delete id }

/-- The source's `Manager.Get`: `none` is the nil session. -/
def Manager.Get {S : Type} (m : Manager S) (id : String) : Option S :=
  match m.Sessions.Load id with
  | none => none
  | some sess => some sess

/-- The source's `Manager.Range`. -/
def Manager.Range {S σ : Type} (m : Manager S) (fn : String → S → σ → Bool × σ) (w : σ) : σ :=
  m.Sessions.Range (fun key value => fn key value) w

/-- One call of a visitor, as the log of `traced` keeps it: the arguments and
the answer. -/
structure Visit (S : Type) where
  id : String
  sess : S
  next : Bool

/-- The visitor `fn` with a log of its calls next to its own world. -/
def traced {S σ : Type} (fn : String → S → σ → Bool × σ) :
    String → S → σ × List (Visit S) → Bool × (σ × List (Visit S)) :=
  fun id s wl =>
    let p := fn id s wl.1
    (p.1, (p.2, wl.2 ++ [⟨id, s, p.1⟩]))

/-- The visitor's world after the calls of a log, made one after the other from
the world `w`. -/
def worldAfter {S σ : Type} (fn : String → S → σ → Bool × σ) (calls : List (Visit S)) (w : σ) : σ :=
  calls.foldl (fun w1 c => (fn c.id c.sess w1).2) w

/-- A session of the examples: an identifier and a mark that tells two
sessions with one identifier apart. -/
structure DemoSession where
  sid : String
  mark : Nat
  deriving DecidableEq, Repr

instance : SessionLike DemoSession := ⟨DemoSession.sid⟩

/-! ## Concrete routers and requests -/

/-- A growth policy for the examples: double the old capacity. -/
def demoGrow : Nat → Nat → Nat := fun oldCap _ => 2 * oldCap

/-- A request for identifier `id`. -/
def demoCtx (id : Nat) : routeContext Nat := ⟨some ⟨id, []⟩⟩

/-- A context without a request entry. -/
def emptyCtx : routeContext Nat := ⟨none⟩

/-- Global middlewares 1 and 2, and for identifier 7 the handler 0 behind the
middlewares 3 and 4; nil middlewares are passed along and skipped. -/
def demoRouter : Router Nat (List (Event Nat)) :=
  ((newRouter).registerMiddleware demoGrow
      [some (recordMiddleware 1), none, some (recordMiddleware 2)]).register demoGrow 7
    (some (recordHandler 0 none)) [some (recordMiddleware 3), none, some (recordMiddleware 4)]

/-- The router `demoRouter` with a not-found handler 9 that fails. -/
def demoRouterNF : Router Nat (List (Event Nat)) :=
  demoRouter.setNotFoundHandler (some (recordHandler 9 (some "not found")))

/-- A router whose only registration is a global middleware that refuses. -/
def denyRouter : Router Nat Unit :=
  (newRouter).registerMiddleware demoGrow [some denyMiddleware]

/-- A pass-through middleware, as in the doc comment of `MiddlewareFunc`. -/
def passMiddleware {ι σ : Type} : MiddlewareFunc ι σ :=
  fun next w => (fun ctx w1 => next ctx w1, w)

/-- A router with pass-through middlewares only and a counting handler that
fails for identifier 7. -/
def countRouter : Router Nat Nat :=
  ((newRouter).registerMiddleware demoGrow [some passMiddleware]).register demoGrow 7
    (some (countingHandler (some "boom"))) [some passMiddleware, some passMiddleware]

/-- Three sessions `a`, `b`, `c` and a second session under the identifier `a`. -/
def sessA : DemoSession := ⟨"a", 1⟩

/-- The session `b`. -/
def sessB : DemoSession := ⟨"b", 2⟩

/-- The session `c`. -/
def sessC : DemoSession := ⟨"c", 3⟩

/-- Another session object with the identifier `a`. -/
def sessA2 : DemoSession := ⟨"a", 4⟩

/-- The fresh registry. -/
def emptyManager : Manager DemoSession := ⟨SyncMap.empty⟩

/-- The registry with the sessions `a`, `b` and `c`. -/
def demoManager : Manager DemoSession :=
  ((emptyManager.Add (some sessA)).Add (some sessB)).Add (some sessC)

/-- A visitor that counts its calls and always asks to go on. -/
def countAll : String → DemoSession → Nat → Bool × Nat := fun _ _ n => (true, n + 1)

/-- A visitor that counts its calls and always asks to stop. -/
def countStop : String → DemoSession → Nat → Bool × Nat := fun _ _ n => (false, n + 1)

/-- A router whose global slice has one cell to spare (three appends under
`demoGrow` leave the capacity four) and whose identifier 7 has one middleware,
so that `append` in `handleRequest` writes into the backing array of the global
slice. -/
def spareRouter : Router Nat (List (Event Nat)) :=
  ((newRouter).registerMiddleware demoGrow
      [some (recordMiddleware 1), some (recordMiddleware 2), some (recordMiddleware 3)]).register
    demoGrow 7 (some (recordHandler 0 none)) [some (recordMiddleware 4)]

/-! ## The registry singleton -/

/-- The package variables of `session/manager.go` and the objects they point
to: whether `managerOnce` has run its function, the pointer `manager` (`none`
is nil) and the `Manager` objects allocated so far, the address of an object
being its position. -/
structure Globals (S : Type) where
  managerOnce : Bool
  manager : Option Nat
  heap : List (Manager S)

/-- The package variables when the program starts. -/
def initGlobals {S : Type} : Globals S := ⟨false, none, []⟩

/-- The statement `managerOnce.Do(func() { manager = &Manager{} })`. The
standard library's `sync.Once` runs the function of the first `Do` only, and no
`Do` returns before that run is over: the statement is one step. -/
def onceDo {S : Type} (g : Globals S) : Globals S :=
  if g.managerOnce then g
  else { managerOnce := true, manager := some g.heap.length, heap := g.heap ++ [⟨SyncMap.empty⟩] }

/-- The source's `Sessions`, run without another task in between: the pointer
returned and the package variables afterwards. -/
def Sessions {S : Type} (g : Globals S) : Option Nat × Globals S :=
  let g1 := onceDo g
  (g1.manager, g1)

/-- Where a task is in its call of `Sessions`: before `managerOnce.Do`, between
`Do` and `return manager`, or back with the pointer it was given. -/
inductive Caller where
  | calling : Caller
  | returning : Caller
  | returned : Option Nat → Caller
  deriving DecidableEq, Repr

/-- One step of a task inside `Sessions`. -/
def Caller.step {S : Type} (g : Globals S) : Caller → Globals S × Caller
  | Caller.calling => (onceDo g, Caller.returning)
  | Caller.returning => (g, Caller.returned g.manager)
  | Caller.returned p => (g, Caller.returned p)

/-- What the scheduler lets happen next: task `i` takes a step of its call of
`Sessions`, or some task applies a registry operation `f` to the `Manager` at
address `p`. -/
inductive Action (S : Type) where
  | call : Nat → Action S
  | update : Nat → (Manager S → Manager S) → Action S

/-- One scheduled action on the package variables and the tasks. -/
def runAction {S : Type} (st : Globals S × List Caller) : Action S → Globals S × List Caller
  | Action.call i =>
    match st.2[i]? with
    | some c => ((c.step st.1).1, st.2.set i (c.step st.1).2)
    | none => st
  | Action.update p f => ({ st.1 with heap := st.1.heap.modify f p }, st.2)

/-- A schedule, run from a state. -/
def runSchedule {S : Type} (sched : List (Action S)) (st : Globals S × List Caller) :
    Globals S × List Caller :=
  sched.foldl runAction st

/-- How far a task is in its call of `Sessions`: the number of steps taken,
two being the whole call. -/
def Caller.rank : Caller → Nat
  | Caller.calling => 0
  | Caller.returning => 1
  | Caller.returned _ => 2

/-- Whether an action is a step of task `i`. -/
def Action.isCallOf {S : Type} (i : Nat) : Action S → Bool
  | Action.call j => decide (j = i)
  | Action.update _ _ => false

/-- The number of steps that a schedule gives to task `i`. -/
def callSteps {S : Type} (i : Nat) (sched : List (Action S)) : Nat :=
  sched.countP (Action.isCallOf i)

/-- What holds of the package variables and the tasks however the calls of
`Sessions` interleave: before the first `Do` nothing is allocated and no task is
past `Do`; after it `manager` points to the one object allocated; a task that is
back has that pointer. -/
def SingletonInv {S : Type} (st : Globals S × List Caller) : Prop :=
  (st.1.managerOnce = false →
    st.1.manager = none ∧ st.1.heap = [] ∧ ∀ c ∈ st.2, c = Caller.calling) ∧
  (st.1.managerOnce = true → st.1.manager = some 0 ∧ st.1.heap.length = 1) ∧
  (∀ c ∈ st.2, ∀ p, c = Caller.returned p → p = some 0)

/-- Three tasks race through `Sessions` while the session `a` is added through
the pointer the first of them to return was given. -/
def demoSchedule : List (Action DemoSession) :=
  [Action.call 0, Action.call 1, Action.call 1, Action.update 0 (fun m => m.Add (some sessA)),
   Action.call 2, Action.call 0, Action.call 2]

/-! ## Datagram server -/

/-- A channel of type `chan struct{}` on which nothing is sent: `armed` is
open, `fired` is closed. -/
inductive Chan where
  | armed : Chan
  | fired : Chan
  deriving DecidableEq, Repr

/-- How a call ends: it returns a value or it panics. -/
inductive Outcome (α : Type) where
  | returned : α → Outcome α
  | panicked : String → Outcome α
  deriving DecidableEq, Repr

/-- The builtin `close` on a channel: closing a closed channel panics. -/
def closeChan : Chan → Outcome Unit × Chan
  | Chan.armed => (Outcome.returned (), Chan.fired)
  | Chan.fired => (Outcome.panicked "close of closed channel", Chan.fired)

/-- The standard library's `net.UDPConn`, as far as the server uses it: whether
the socket is closed. -/
structure UDPConn where
  closed : Bool
  deriving DecidableEq, Repr

/-- The method `net.UDPConn.Close`: an error on a socket already closed. -/
def UDPConn.Close (c : UDPConn) : Option GoError × UDPConn :=
  if c.closed then (some "use of closed network connection", c) else (none, ⟨true⟩)

/-- Modelled from the spec: the values of the interface `packet.Packer`, which
is declared outside the files under study: the byte-framing default
`&packet.DefaultPacker{}` or another implementation. -/
inductive Packer (π : Type) where
  | DefaultPacker : Packer π
  | custom : π → Packer π
  deriving DecidableEq, Repr

/-- Modelled from the spec: the values of the interface `packet.Codec`, which
is declared outside the files under study: the raw-string default
`&packet.StringCodec{}` or another implementation. -/
inductive Codec (γ : Type) where
  | StringCodec : Codec γ
  | custom : γ → Codec γ
  deriving DecidableEq, Repr

/-- The source's `UdpServer` struct, without its logger. -/
structure UdpServer (π γ : Type) where
  conn : Option UDPConn
  rwBufferSize : Int
  maxBufferSize : Int
  msgPacker : Option (Packer π)
  msgCodec : Option (Codec γ)
  accepting : Chan
  stopped : Chan
  deriving DecidableEq, Repr

/-- The source's `UdpOption` struct. -/
structure UdpOption (π γ : Type) where
  MaxBufferSize : Int
  RWBufferSize : Int
  MsgPacker : Option (Packer π)
  MsgCodec : Option (Codec γ)
  deriving DecidableEq, Repr

/-- The source's `NewUdp`. -/
def NewUdp {π γ : Type} (opt : UdpOption π γ) : UdpServer π γ :=
  let opt := if opt.MaxBufferSize ≤ 0 then { opt with MaxBufferSize := 1024 } else opt
  let opt := match opt.MsgPacker with
    | none => { opt with MsgPacker := some Packer.DefaultPacker }
    | some _ => opt
  let opt := match opt.MsgCodec with
    | none => { opt with MsgCodec := some Codec.StringCodec }
    | some _ => opt
  { conn := none
    rwBufferSize := opt.RWBufferSize
    msgPacker := opt.MsgPacker
    msgCodec := opt.MsgCodec
    maxBufferSize := opt.MaxBufferSize
    accepting := Chan.armed
    stopped := Chan.armed }

/-- The source's `UdpServer.Stop`: the outcome and the server afterwards. A
panic ends the call where it happens. -/
def UdpServer.Stop {π γ : Type} (t : UdpServer π γ) :
    Outcome (Option GoError) × UdpServer π γ :=
  match closeChan t.stopped with
  | (Outcome.panicked msg, ch) => (Outcome.panicked msg, { t with stopped := ch })
  | (Outcome.returned _, ch) =>
    match t.conn with
    | none =>
      (Outcome.panicked "invalid memory address or nil pointer dereference",
        { t with stopped := ch })
    | some c => (Outcome.returned c.Close.1, { t with stopped := ch, conn := some c.Close.2 })

/-- What one call of `ReadFromUDP` yields: a datagram and its sender, or an
error. -/
inductive ReadResult (Addr : Type) where
  | datagram : List Nat → Addr → ReadResult Addr
  | failed : GoError → ReadResult Addr

/-- The arguments of one started `handleIncomingMsg`: the slice `buff[:n]`,
which is the first `msgLen` cells of the loop's buffer, and the sender. -/
structure Task (Addr : Type) where
  msgLen : Nat
  addr : Addr
  deriving DecidableEq, Repr

/-- The accept loop between two reads: its buffer and the tasks it has started. -/
structure LoopState (Addr : Type) where
  buff : List Nat
  tasks : List (Task Addr)
  deriving DecidableEq, Repr

/-- The effect of `ReadFromUDP(buff)` on the buffer: the payload, cut to the
length of the buffer, is written from the first cell on; the count is returned. -/
def readInto (buff payload : List Nat) : Nat × List Nat :=
  let n := min payload.length buff.length
  (n, payload.take n ++ buff.drop n)

/-- The `for` loop of `acceptLoop` over the reads the socket answers: a failed
read returns the wrapped error, a datagram starts a task on `buff[:n]`. With no
read left the loop is waiting in `ReadFromUDP` and has returned nothing. -/
def acceptReads {Addr : Type} : List (ReadResult Addr) → LoopState Addr →
    Option GoError × LoopState Addr
  | [], st => (none, st)
  | ReadResult.failed err :: _, st => (some ("read conn err: " ++ err), st)
  | ReadResult.datagram payload addr :: rest, st =>
    acceptReads rest ⟨(readInto st.buff payload).2,
      st.tasks ++ [⟨(readInto st.buff payload).1, addr⟩]⟩

/-- The source's `UdpServer.acceptLoop`: `close(t.accepting)`, the buffer of
`maxBufferSize` zero bytes, then the loop. The size is positive on every server
that `NewUdp` builds. -/
def UdpServer.acceptLoop {π γ Addr : Type} (t : UdpServer π γ) (reads : List (ReadResult Addr)) :
    Outcome (Option GoError) × UdpServer π γ × LoopState Addr :=
  match closeChan t.accepting with
  | (Outcome.panicked msg, ch) => (Outcome.panicked msg, { t with accepting := ch }, ⟨[], []⟩)
  | (Outcome.returned _, ch) =>
    let r := acceptReads reads ⟨List.replicate t.maxBufferSize.toNat 0, []⟩
    (Outcome.returned r.1, { t with accepting := ch }, r.2)

/-- The bytes that the task started for datagram `k` finds in its `msg` when
the loop is in state `st`. -/
def LoopState.msgOf {Addr : Type} (st : LoopState Addr) (k : Nat) : Option (List Nat) :=
  (st.tasks[k]?).map (fun task => st.buff.take task.msgLen)

/-- Modelled from the spec: the session that `session.NewUdp` builds is
declared outside the files under study; these are the calls that
`handleIncomingMsg` makes on it, as effects on a world: the start of the task
`router.Instance().Loop(sess)`, `ReadIncomingMsg`, `Write`, `Close` and the
deferred trace line. -/
structure UdpSessionOps (σ : Type) where
  goLoop : σ → σ
  ReadIncomingMsg : List Nat → σ → Option GoError × σ
  Write : Chan → σ → σ
  Close : σ → σ
  traceClosed : σ → σ

/-- The source's `UdpServer.handleIncomingMsg`. -/
def UdpServer.handleIncomingMsg {π γ σ : Type} (t : UdpServer π γ) (sess : UdpSessionOps σ)
    (msg : List Nat) (w : σ) : σ :=
  let w1 := sess.goLoop w
  let r := sess.ReadIncomingMsg msg w1
  match r.1 with
  | some _ => sess.traceClosed r.2
  | none => sess.traceClosed (sess.Close (sess.Write t.stopped r.2))

/-- A call that a recording session writes to its log. -/
inductive SessCall where
  | loopStarted : SessCall
  | read : List Nat → SessCall
  | write : SessCall
  | close : SessCall
  | tracedClosed : SessCall
  deriving DecidableEq, Repr

/-- A session that logs every call made on it; `ReadIncomingMsg` answers
`readErr`. -/
def recordingSession (readErr : Option GoError) : UdpSessionOps (List SessCall) :=
  { goLoop := fun w => w ++ [SessCall.loopStarted]
    ReadIncomingMsg := fun msg w => (readErr, w ++ [SessCall.read msg])
    Write := fun _ w => w ++ [SessCall.write]
    Close := fun w => w ++ [SessCall.close]
    traceClosed := fun w => w ++ [SessCall.tracedClosed] }

/-- A server built with the zero option value. -/
def demoServer : UdpServer Unit Unit := NewUdp ⟨0, 0, none, none⟩

/-- The server `demoServer` once `Serve` has bound a socket. -/
def boundServer : UdpServer Unit Unit := { demoServer with conn := some ⟨false⟩ }

/-- A server with a buffer of eight bytes, once `Serve` has bound a socket. -/
def smallServer : UdpServer Unit Unit :=
  { (NewUdp ⟨8, 0, none, none⟩ : UdpServer Unit Unit) with conn := some ⟨false⟩ }

/-- The server `boundServer` once it has entered the accept loop and waits for
its first datagram. -/
def servingServer : UdpServer Unit Unit :=
  (boundServer.acceptLoop ([] : List (ReadResult Nat))).2.1

/-! ## Slices: what `append` returns and what it leaves -/

theorem goAppend_elems {α : Type} (g : Nat → Nat → Nat) (s : Slice α) (vs : List α) :
    (goAppend g s vs).1.elems = s.elems ++ vs := by
  unfold goAppend
  split <;> rfl

theorem goAppend_alias_elems {α : Type} (g : Nat → Nat → Nat) (s : Slice α) (vs : List α) :
    (goAppend g s vs).2.elems = s.elems := by
  unfold goAppend
  split <;> rfl

/-! ## The loop of `wrapHandlers` is the right fold -/

theorem chain_nil {ι σ : Type} (h : HandlerFunc ι σ) (w : σ) : chain h [] w = (h, w) := rfl

theorem chain_cons {ι σ : Type} (h : HandlerFunc ι σ) (m : MiddlewareFunc ι σ)
    (ms : List (MiddlewareFunc ι σ)) (w : σ) :
    chain h (m :: ms) w = m (chain h ms w).1 (chain h ms w).2 := rfl

theorem chain_snoc {ι σ : Type} (h : HandlerFunc ι σ) (m : MiddlewareFunc ι σ)
    (ms : List (MiddlewareFunc ι σ)) (w : σ) :
    chain h (ms ++ [m]) w = chain (m h w).1 ms (m h w).2 := by
  induction ms with
  | nil => rfl
  | cons x xs ih => rw [List.cons_append, chain_cons, chain_cons, ih]

theorem wrapLoop_append {ι σ : Type} (xs : List (MiddlewareFunc ι σ)) :
    ∀ (ys : List (MiddlewareFunc ι σ)) (h : HandlerFunc ι σ) (w : σ),
      wrapLoop (xs ++ ys) xs.length h w = chain h xs w := by
  induction xs using List.reverseRecOn with
  | nil => intro ys h w; rfl
  | append_singleton xs m ih =>
    intro ys h w
    have hidx : (xs ++ [m] ++ ys)[xs.length]? = some m := by
      rw [List.append_assoc, List.getElem?_append_right (le_refl _)]
      simp
    rw [List.length_append, List.length_singleton, wrapLoop, hidx]
    simp only []
    rw [chain_snoc, ← ih ([m] ++ ys), List.append_assoc]

theorem wrapLoop_eq_chain {ι σ : Type} (ms : List (MiddlewareFunc ι σ)) (h : HandlerFunc ι σ)
    (w : σ) : wrapLoop ms ms.length h w = chain h ms w := by
  have := wrapLoop_append ms [] h w
  rwa [List.append_nil] at this

theorem wrapHandlers_eq_chain {ι σ : Type} (r : Router ι σ) (handler : Option (HandlerFunc ι σ))
    (middles : Slice (MiddlewareFunc ι σ)) (w : σ) :
    r.wrapHandlers handler middles w
      = chain (resolveHandler handler r.notFoundHandler) middles.elems w := by
  unfold Router.wrapHandlers Slice.len
  rw [wrapLoop_eq_chain]
  cases handler with
  | some h => rfl
  | none => cases hnf : r.notFoundHandler <;> simp [resolveHandler, hnf]

theorem handleRequest_eq_runChain {ι σ : Type} (g : Nat → Nat → Nat) (r : Router ι σ)
    (ctx : routeContext ι) (e : Entry ι) (w : σ) (hctx : ctx.reqEntry = some e) :
    (r.handleRequest g ctx w).1
      = runChain (resolveHandler (r.handlerMapper e.ID) r.notFoundHandler)
          (r.globalMiddlewares.elems ++ r.middlewaresOf e.ID) ctx w := by
  unfold Router.handleRequest Router.middlewaresOf runChain
  rw [hctx]
  cases hm : r.middlewaresMapper e.ID with
  | none => simp [hm, wrapHandlers_eq_chain]
  | some v => simp [hm, wrapHandlers_eq_chain, goAppend_elems]

/-! ## Recording middlewares -/

theorem chain_record {ι τ : Type} (t : τ) (res : Option GoError) (ts : List τ) :
    ∀ (w : List (Event τ)),
      (chain (recordHandler t res : HandlerFunc ι (List (Event τ)))
        (ts.map recordMiddleware) w).2 = w ∧
      ∀ (ctx : routeContext ι) (w1 : List (Event τ)),
        (chain (recordHandler t res) (ts.map recordMiddleware) w).1 ctx w1
          = (res, w1 ++ ts.map Event.enter ++ [Event.enter t, Event.leave t]
              ++ ts.reverse.map Event.leave) := by
  induction ts with
  | nil => intro w; exact ⟨rfl, fun ctx w1 => by simp [chain_nil, recordHandler]⟩
  | cons x xs ih =>
    intro w
    obtain ⟨h2, h1⟩ := ih w
    rw [List.map_cons, chain_cons]
    refine ⟨by simp [recordMiddleware, h2], fun ctx w1 => ?_⟩
    simp [recordMiddleware, h1]

/-! ## Pass-through middlewares -/

theorem chain_passThrough {ι σ : Type} (h : HandlerFunc ι σ) (ms : List (MiddlewareFunc ι σ))
    (hp : ∀ m ∈ ms, PassThrough m) (w : σ) :
    (chain h ms w).2 = w ∧
      ∀ (ctx : routeContext ι) (w1 : σ), (chain h ms w).1 ctx w1 = h ctx w1 := by
  induction ms with
  | nil => exact ⟨rfl, fun _ _ => rfl⟩
  | cons m ms ih =>
    have hm : PassThrough m := hp m (List.mem_cons_self m ms)
    obtain ⟨ih2, ih1⟩ := ih (fun x hx => hp x (List.mem_cons_of_mem m hx))
    obtain ⟨hm2, hm1⟩ := hm (chain h ms w).1 (chain h ms w).2
    rw [chain_cons]
    exact ⟨hm2.trans ih2, fun ctx w1 => (hm1 ctx w1).trans (ih1 ctx w1)⟩

theorem runChain_passThrough {ι σ : Type} (h : HandlerFunc ι σ) (ms : List (MiddlewareFunc ι σ))
    (hp : ∀ m ∈ ms, PassThrough m) (ctx : routeContext ι) (w : σ) :
    runChain h ms ctx w = h ctx w := by
  obtain ⟨h2, h1⟩ := chain_passThrough h ms hp w
  unfold runChain
  rw [h1, h2]

theorem passMiddleware_passThrough {ι σ : Type} :
    PassThrough (passMiddleware : MiddlewareFunc ι σ) :=
  fun _ _ => ⟨rfl, fun _ _ => rfl⟩

/-! ## Registration -/

theorem register_fold_elems {α : Type} (g : Nat → Nat → Nat) (m : List (Option α)) :
    ∀ (init : Slice α),
      (m.foldl (fun ms mm => match mm with
        | some f => (goAppend g ms [f]).1
        | none => ms) init).elems = init.elems ++ m.reduceOption := by
  induction m with
  | nil => intro init; simp
  | cons x xs ih =>
    intro init
    cases x with
    | none => simpa using ih init
    | some f =>
      rw [List.foldl_cons, ih, goAppend_elems, List.reduceOption_cons_of_some]
      simp

theorem registerMiddleware_elems {ι σ : Type} (g : Nat → Nat → Nat)
    (m : List (Option (MiddlewareFunc ι σ))) :
    ∀ (r : Router ι σ),
      (r.registerMiddleware g m).globalMiddlewares.elems
        = r.globalMiddlewares.elems ++ m.reduceOption := by
  induction m with
  | nil => intro r; simp [Router.registerMiddleware]
  | cons x xs ih =>
    intro r
    cases x with
    | none =>
      have := ih r
      simpa [Router.registerMiddleware] using this
    | some f =>
      have := ih { r with globalMiddlewares := (goAppend g r.globalMiddlewares [f]).1 }
      rw [goAppend_elems] at this
      simpa [Router.registerMiddleware] using this

theorem collectMiddlewares_elems {α : Type} (g : Nat → Nat → Nat) (m : List (Option α)) :
    (collectMiddlewares g m).elems = m.reduceOption := by
  unfold collectMiddlewares
  rw [register_fold_elems]
  rfl

theorem register_middlewaresMapper_of_ne {ι σ : Type} [DecidableEq ι] (g : Nat → Nat → Nat)
    (r : Router ι σ) (id : ι) (h : Option (HandlerFunc ι σ))
    (m : List (Option (MiddlewareFunc ι σ))) (hne : m.reduceOption ≠ []) :
    (r.register g id h m).middlewaresMapper
      = Function.update r.middlewaresMapper id (some (collectMiddlewares g m)) := by
  have hz : (collectMiddlewares g m).len ≠ 0 := by
    unfold Slice.len
    rw [collectMiddlewares_elems]
    exact fun hc => hne (List.length_eq_zero.mp hc)
  unfold Router.register
  rw [if_pos hz]
  cases h <;> rfl

theorem register_middlewaresMapper_of_eq {ι σ : Type} [DecidableEq ι] (g : Nat → Nat → Nat)
    (r : Router ι σ) (id : ι) (h : Option (HandlerFunc ι σ))
    (m : List (Option (MiddlewareFunc ι σ))) (he : m.reduceOption = []) :
    (r.register g id h m).middlewaresMapper = r.middlewaresMapper := by
  have hz : (collectMiddlewares g m).len = 0 := by
    unfold Slice.len
    rw [collectMiddlewares_elems, he]
    rfl
  unfold Router.register
  rw [if_neg (not_not.mpr hz)]
  cases h <;> rfl

theorem register_handlerMapper {ι σ : Type} [DecidableEq ι] (g : Nat → Nat → Nat)
    (r : Router ι σ) (id : ι) (h : Option (HandlerFunc ι σ))
    (m : List (Option (MiddlewareFunc ι σ))) :
    (r.register g id h m).handlerMapper
      = match h with
        | some f => Function.update r.handlerMapper id (some f)
        | none => r.handlerMapper := by
  unfold Router.register
  cases h <;> (simp only []; split <;> rfl)

/-! ## Dispatch -/

/-- C1: `wrapHandlers` on a handler `h` and a list of middlewares is the right
fold `m1(m2(...mn(h)))`; dispatch of a request whose identifier has the bound
handler `h` runs that fold over the global middlewares followed by the
per-identifier ones; and with recording middlewares `g1..gk`, `m1..mn` and a
recording handler the log reads enter `g1..gk, m1..mn, h`, then leave in the
exact reverse order. -/
theorem dispatch_order :
    (∀ (ι σ : Type) (r : Router ι σ) (h : HandlerFunc ι σ)
        (ms : Slice (MiddlewareFunc ι σ)) (w : σ),
        r.wrapHandlers (some h) ms w = chain h ms.elems w) ∧
    (∀ (ι σ : Type) (growCap : Nat → Nat → Nat) (r : Router ι σ) (ctx : routeContext ι)
        (e : Entry ι) (h : HandlerFunc ι σ) (w : σ),
        ctx.reqEntry = some e → r.handlerMapper e.ID = some h →
        (r.handleRequest growCap ctx w).1
          = runChain h (r.globalMiddlewares.elems ++ r.middlewaresOf e.ID) ctx w) ∧
    (∀ (ι τ : Type) (growCap : Nat → Nat → Nat) (r : Router ι (List (Event τ)))
        (ctx : routeContext ι) (e : Entry ι) (gs ms : List τ) (t : τ) (res : Option GoError)
        (w : List (Event τ)),
        ctx.reqEntry = some e → r.handlerMapper e.ID = some (recordHandler t res) →
        r.globalMiddlewares.elems = gs.map recordMiddleware →
        r.middlewaresOf e.ID = ms.map recordMiddleware →
        (r.handleRequest growCap ctx w).1
          = (res, w ++ (gs ++ ms).map Event.enter ++ [Event.enter t, Event.leave t]
              ++ (gs ++ ms).reverse.map Event.leave)) := by
  refine ⟨?_, ?_, ?_⟩
  · intro ι σ r h ms w
    rw [wrapHandlers_eq_chain]
    rfl
  · intro ι σ growCap r ctx e h w hctx hh
    rw [handleRequest_eq_runChain growCap r ctx e w hctx, hh]
    rfl
  · intro ι τ growCap r ctx e gs ms t res w hctx hh hg hm
    rw [handleRequest_eq_runChain growCap r ctx e w hctx, hh, hg, hm, ← List.map_append]
    have hc := @chain_record ι τ t res (gs ++ ms) w
    show runChain (recordHandler t res) _ ctx w = _
    unfold runChain
    rw [hc.2 ctx, hc.1]

/-- Witness of C1: globals 1, 2, per-identifier 3, 4, handler 0. -/
theorem dispatch_order_witness :
    (demoRouter.handleRequest demoGrow (demoCtx 7) []).1
      = (none, [Event.enter 1, Event.enter 2, Event.enter 3, Event.enter 4, Event.enter 0,
          Event.leave 0, Event.leave 4, Event.leave 3, Event.leave 2, Event.leave 1]) :=
  dispatch_order.2.2 Nat Nat demoGrow demoRouter (demoCtx 7) ⟨7, []⟩ [1, 2] [3, 4] 0 none []
    rfl rfl rfl rfl

/-- C2: after `setNotFoundHandler nf`, dispatch of a request for an identifier
runs, inside the global and per-identifier middlewares of the router, the bound
handler if there is one (whatever `nf` is), else `nf` if it is not nil, else the
handler that always succeeds. -/
theorem handler_resolution {ι σ : Type} (growCap : Nat → Nat → Nat) (r : Router ι σ)
    (nf : Option (HandlerFunc ι σ)) (ctx : routeContext ι) (e : Entry ι) (w : σ)
    (hctx : ctx.reqEntry = some e) :
    (∀ h, r.handlerMapper e.ID = some h →
      ((r.setNotFoundHandler nf).handleRequest growCap ctx w).1
        = runChain h (r.globalMiddlewares.elems ++ r.middlewaresOf e.ID) ctx w) ∧
    (∀ f, r.handlerMapper e.ID = none → nf = some f →
      ((r.setNotFoundHandler nf).handleRequest growCap ctx w).1
        = runChain f (r.globalMiddlewares.elems ++ r.middlewaresOf e.ID) ctx w) ∧
    (r.handlerMapper e.ID = none → nf = none →
      ((r.setNotFoundHandler nf).handleRequest growCap ctx w).1
        = runChain nilHandler (r.globalMiddlewares.elems ++ r.middlewaresOf e.ID) ctx w) := by
  have key := handleRequest_eq_runChain growCap (r.setNotFoundHandler nf) ctx e w hctx
  have hmw : (r.setNotFoundHandler nf).middlewaresOf e.ID = r.middlewaresOf e.ID := rfl
  have hg : (r.setNotFoundHandler nf).globalMiddlewares = r.globalMiddlewares := rfl
  have hh : (r.setNotFoundHandler nf).handlerMapper = r.handlerMapper := rfl
  have hn : (r.setNotFoundHandler nf).notFoundHandler = nf := rfl
  rw [hmw, hg, hh, hn] at key
  refine ⟨fun h hb => ?_, fun f hb hf => ?_, fun hb hf => ?_⟩
  · rw [key, hb]; rfl
  · rw [key, hb, hf]; rfl
  · rw [key, hb, hf]; rfl

/-- Witness of C2: identifier 8 has no handler in `demoRouter`, so the
not-found handler 9 runs inside the global middlewares 1 and 2. -/
theorem handler_resolution_witness :
    ((demoRouter.setNotFoundHandler (some (recordHandler 9 (some "not found")))).handleRequest
        demoGrow (demoCtx 8) []).1
      = (some "not found", [Event.enter 1, Event.enter 2, Event.enter 9, Event.leave 9,
          Event.leave 2, Event.leave 1]) :=
  (handler_resolution demoGrow demoRouter (some (recordHandler 9 (some "not found")))
    (demoCtx 8) ⟨8, []⟩ [] rfl).2.1 (recordHandler 9 (some "not found")) rfl rfl

/-- C3, as the claim states it, fails: with no bound handler and no not-found
handler, a registered middleware that refuses makes dispatch return an error. -/
theorem noop_dispatch_refuted :
    ¬ (∀ (ι σ : Type) (growCap : Nat → Nat → Nat) (r : Router ι σ) (ctx : routeContext ι)
        (e : Entry ι) (w : σ),
        ctx.reqEntry = some e → r.handlerMapper e.ID = none → r.notFoundHandler = none →
        (r.handleRequest growCap ctx w).1.1 = none) := by
  intro H
  have h := H Nat Unit demoGrow denyRouter (demoCtx 7) ⟨7, []⟩ () rfl rfl rfl
  have h2 : (denyRouter.handleRequest demoGrow (demoCtx 7) ()).1.1 = some "denied" := rfl
  rw [h2] at h
  cases h

/-- C3, amended: with no bound handler and no not-found handler, dispatch runs
the handler that always succeeds inside the registered global and
per-identifier middlewares; when these are all pass-through (in particular when
there are none) it returns no error and leaves the world as it was. -/
theorem noop_dispatch {ι σ : Type} (growCap : Nat → Nat → Nat) (r : Router ι σ)
    (ctx : routeContext ι) (e : Entry ι) (w : σ) (hctx : ctx.reqEntry = some e)
    (hb : r.handlerMapper e.ID = none) (hnf : r.notFoundHandler = none) :
    (r.handleRequest growCap ctx w).1
        = runChain nilHandler (r.globalMiddlewares.elems ++ r.middlewaresOf e.ID) ctx w ∧
    ((∀ m ∈ r.globalMiddlewares.elems ++ r.middlewaresOf e.ID, PassThrough m) →
      (r.handleRequest growCap ctx w).1 = (none, w)) := by
  have key := handleRequest_eq_runChain growCap r ctx e w hctx
  rw [hb, hnf] at key
  refine ⟨key, fun hp => ?_⟩
  rw [key]
  exact runChain_passThrough _ _ hp ctx w

/-- Witness of C3 amended: a fresh router, no registration at all. -/
theorem noop_dispatch_witness :
    ((newRouter : Router Nat Nat).handleRequest demoGrow (demoCtx 7) 5).1 = (none, 5) :=
  (noop_dispatch demoGrow (newRouter : Router Nat Nat) (demoCtx 7) ⟨7, []⟩ 5 rfl rfl rfl).2
    (fun _ hm => by simp [newRouter, nilSlice, Router.middlewaresOf] at hm)

/-! ## Registration -/

/-- C4: `register(id, nil, ms...)` on a router where `id` has the handler `h`
leaves the handler table as it was, so `h` is still bound to `id`. -/
theorem register_nil_handler {ι σ : Type} [DecidableEq ι] (growCap : Nat → Nat → Nat)
    (r : Router ι σ) (id : ι) (h : HandlerFunc ι σ) (ms : List (Option (MiddlewareFunc ι σ)))
    (hb : r.handlerMapper id = some h) :
    (r.register growCap id none ms).handlerMapper = r.handlerMapper ∧
      (r.register growCap id none ms).handlerMapper id = some h := by
  have key := register_handlerMapper growCap r id none ms
  simp only [] at key
  exact ⟨key, by rw [key, hb]⟩

/-- Witness of C4: `demoRouter` has the handler 0 for identifier 7. -/
theorem register_nil_handler_witness :
    (demoRouter.register demoGrow 7 none [some (recordMiddleware 5)]).handlerMapper
        = demoRouter.handlerMapper ∧
      (demoRouter.register demoGrow 7 none [some (recordMiddleware 5)]).handlerMapper 7
        = some (recordHandler 0 none) :=
  register_nil_handler demoGrow demoRouter 7 (recordHandler 0 none)
    [some (recordMiddleware 5)] rfl

/-- C5: on a context without a request entry `handleRequest` returns nil at
once: the world is as it was, whatever the handlers and middlewares of the
router would do, and so is the router. -/
theorem handleRequest_no_entry {ι σ : Type} (growCap : Nat → Nat → Nat) (r : Router ι σ)
    (ctx : routeContext ι) (w : σ) (hctx : ctx.reqEntry = none) :
    r.handleRequest growCap ctx w = ((none, w), r) := by
  unfold Router.handleRequest
  rw [hctx]

/-- Witness of C5: the recording router logs nothing. -/
theorem handleRequest_no_entry_witness :
    demoRouterNF.handleRequest demoGrow emptyCtx [] = ((none, []), demoRouterNF) :=
  handleRequest_no_entry demoGrow demoRouterNF emptyCtx [] rfl

/-- C6: when the global and per-identifier middlewares met by a request are all
pass-through, `handleRequest` returns what one call of the resolved handler
returns on that context, error and world alike; for a handler that counts its
calls the count goes up by exactly one. -/
theorem dispatch_propagates :
    (∀ (ι σ : Type) (growCap : Nat → Nat → Nat) (r : Router ι σ) (ctx : routeContext ι)
        (e : Entry ι) (w : σ),
        ctx.reqEntry = some e →
        (∀ m ∈ r.globalMiddlewares.elems, PassThrough m) →
        (∀ m ∈ r.middlewaresOf e.ID, PassThrough m) →
        (r.handleRequest growCap ctx w).1
          = resolveHandler (r.handlerMapper e.ID) r.notFoundHandler ctx w) ∧
    (∀ (ι : Type) (growCap : Nat → Nat → Nat) (r : Router ι Nat) (ctx : routeContext ι)
        (e : Entry ι) (res : Option GoError) (n : Nat),
        ctx.reqEntry = some e →
        (∀ m ∈ r.globalMiddlewares.elems, PassThrough m) →
        (∀ m ∈ r.middlewaresOf e.ID, PassThrough m) →
        resolveHandler (r.handlerMapper e.ID) r.notFoundHandler = countingHandler res →
        (r.handleRequest growCap ctx n).1 = (res, n + 1)) := by
  have main : ∀ (ι σ : Type) (growCap : Nat → Nat → Nat) (r : Router ι σ)
      (ctx : routeContext ι) (e : Entry ι) (w : σ),
      ctx.reqEntry = some e →
      (∀ m ∈ r.globalMiddlewares.elems, PassThrough m) →
      (∀ m ∈ r.middlewaresOf e.ID, PassThrough m) →
      (r.handleRequest growCap ctx w).1
        = resolveHandler (r.handlerMapper e.ID) r.notFoundHandler ctx w := by
    intro ι σ growCap r ctx e w hctx hg hm
    rw [handleRequest_eq_runChain growCap r ctx e w hctx]
    refine runChain_passThrough _ _ (fun m hmem => ?_) ctx w
    rcases List.mem_append.mp hmem with h1 | h1
    · exact hg m h1
    · exact hm m h1
  refine ⟨main, ?_⟩
  intro ι growCap r ctx e res n hctx hg hm hres
  rw [main ι Nat growCap r ctx e n hctx hg hm, hres]
  rfl

/-- Witness of C6: the failing, counting handler of `countRouter` behind three
pass-through middlewares is run once and its error is handed on. -/
theorem dispatch_propagates_witness :
    (countRouter.handleRequest demoGrow (demoCtx 7) 0).1 = (some "boom", 1) :=
  dispatch_propagates.2 Nat demoGrow countRouter (demoCtx 7) ⟨7, []⟩ (some "boom") 0 rfl
    (fun m hm => by
      have hl : countRouter.globalMiddlewares.elems = [passMiddleware] := rfl
      rw [hl] at hm
      have : m = passMiddleware := by simpa using hm
      rw [this]; exact passMiddleware_passThrough)
    (fun m hm => by
      have hl : countRouter.middlewaresOf 7 = [passMiddleware, passMiddleware] := rfl
      rw [hl] at hm
      have : m = passMiddleware := by simpa using hm
      rw [this]; exact passMiddleware_passThrough)
    rfl
/-- C7: `register(id, h, ms...)` stores for `id` exactly the non-nil elements
of `ms` in their order when there is one (whatever the table held for `id`
before), and leaves the per-identifier table as it was when there is none. -/
theorem register_stores_non_nil {ι σ : Type} [DecidableEq ι] (growCap : Nat → Nat → Nat)
    (r : Router ι σ) (id : ι) (h : Option (HandlerFunc ι σ))
    (ms : List (Option (MiddlewareFunc ι σ))) :
    (ms.reduceOption ≠ [] →
      ((r.register growCap id h ms).middlewaresMapper id).map Slice.elems = some ms.reduceOption ∧
      (r.register growCap id h ms).middlewaresOf id = ms.reduceOption) ∧
    (ms.reduceOption = [] →
      (r.register growCap id h ms).middlewaresMapper = r.middlewaresMapper) := by
  refine ⟨fun hne => ?_, fun he => register_middlewaresMapper_of_eq growCap r id h ms he⟩
  have key := register_middlewaresMapper_of_ne growCap r id h ms hne
  unfold Router.middlewaresOf
  rw [key, Function.update_same]
  exact ⟨by rw [Option.map_some', collectMiddlewares_elems], collectMiddlewares_elems growCap ms⟩

/-- Witness of C7: identifier 7 of `demoRouter` holds the middlewares 3 and 4;
registering a nil and the middleware 5 leaves it with 5 alone. -/
theorem register_stores_non_nil_witness :
    (demoRouter.register demoGrow 7 none [none, some (recordMiddleware 5)]).middlewaresOf 7
      = [recordMiddleware 5] :=
  ((register_stores_non_nil demoGrow demoRouter 7 none [none, some (recordMiddleware 5)]).1
    (by simp [List.reduceOption])).2

/-- C8: `registerMiddleware(ms...)` turns the global chain `G` into `G`
followed by the non-nil elements of `ms` in their order; a second call appends
after the first. -/
theorem registerMiddleware_appends {ι σ : Type} (growCap : Nat → Nat → Nat) (r : Router ι σ)
    (ms ms2 : List (Option (MiddlewareFunc ι σ))) :
    (r.registerMiddleware growCap ms).globalMiddlewares.elems
        = r.globalMiddlewares.elems ++ ms.reduceOption ∧
    ((r.registerMiddleware growCap ms).registerMiddleware growCap ms2).globalMiddlewares.elems
        = r.globalMiddlewares.elems ++ ms.reduceOption ++ ms2.reduceOption := by
  refine ⟨registerMiddleware_elems growCap ms r, ?_⟩
  rw [registerMiddleware_elems, registerMiddleware_elems]
/-! ## Session registry -/

theorem find_of_mem_of_nodup {κ ν : Type} [DecidableEq κ] (l : List (κ × ν)) (k : κ) (v : ν)
    (hn : (l.map Prod.fst).Nodup) (hmem : (k, v) ∈ l) :
    l.find? (fun p => decide (p.1 = k)) = some (k, v) := by
  induction l with
  | nil => cases hmem
  | cons p rest ih =>
    rw [List.map_cons, List.nodup_cons] at hn
    rcases List.mem_cons.mp hmem with h | h
    · subst h
      simp [List.find?]
    · have hne : p.1 ≠ k := by
        intro hc
        apply hn.1
        rw [hc]
        exact List.mem_map.mpr ⟨(k, v), h, rfl⟩
      rw [List.find?_cons_of_neg _ (by simpa using hne)]
      exact ih hn.2 h

theorem rangeList_traced {S σ : Type} (fn : String → S → σ → Bool × σ) (l : List (String × S)) :
    ∀ (w : σ) (log : List (Visit S)),
      ∃ vs : List (Visit S),
        rangeList (traced fn) l (w, log) = (rangeList fn l w, log ++ vs) ∧
        (∃ rest, vs.map (fun c => (c.id, c.sess)) ++ rest = l) ∧
        (∀ c ∈ vs.dropLast, c.next = true) ∧
        ((∀ c ∈ vs, c.next = true) → vs.map (fun c => (c.id, c.sess)) = l) ∧
        (∀ c ∈ vs, ∃ w1, c.next = (fn c.id c.sess w1).1) ∧
        rangeList fn l w = worldAfter fn vs w ∧
        (∀ (i : Nat) (c : Visit S), vs[i]? = some c →
          c.next = (fn c.id c.sess (worldAfter fn (vs.take i) w)).1) := by
  induction l with
  | nil =>
    intro w log
    exact ⟨[], by simp [rangeList], ⟨[], rfl⟩, by simp, by simp, by simp, rfl, by simp⟩
  | cons p rest ih =>
    intro w log
    cases hb : (fn p.1 p.2 w).1 with
    | false =>
      refine ⟨[⟨p.1, p.2, false⟩], ?_, ⟨rest, rfl⟩, by simp, ?_, ?_, ?_, ?_⟩
      · simp [rangeList, traced, hb]
      · intro hall
        have := hall ⟨p.1, p.2, false⟩ (List.mem_singleton.mpr rfl)
        cases this
      · intro c hc
        rw [List.mem_singleton.mp hc]
        exact ⟨w, hb.symm⟩
      · simp [rangeList, worldAfter, hb]
      · intro i c hi
        cases i with
        | zero =>
          have hc : c = ⟨p.1, p.2, false⟩ := by simpa using hi.symm
          rw [hc]
          exact hb.symm
        | succ j => simp at hi
    | true =>
      obtain ⟨vs, h1, ⟨tl, h2⟩, h3, h4, h5, h6, h7⟩ :=
        ih (fn p.1 p.2 w).2 (log ++ [⟨p.1, p.2, true⟩])
      refine ⟨⟨p.1, p.2, true⟩ :: vs, ?_, ⟨tl, ?_⟩, ?_, ?_, ?_, ?_, ?_⟩
      · simp [rangeList, traced, hb, h1]
      · simp [h2]
      · intro c hc
        cases vs with
        | nil => simp at hc
        | cons v vs2 =>
          rw [List.dropLast_cons₂] at hc
          rcases List.mem_cons.mp hc with h | h
          · rw [h]
          · exact h3 c h
      · intro hall
        have := h4 (fun c hc => hall c (List.mem_cons_of_mem _ hc))
        simp [this]
      · intro c hc
        rcases List.mem_cons.mp hc with h | h
        · rw [h]; exact ⟨w, hb.symm⟩
        · exact h5 c h
      · have hstep : rangeList fn (p :: rest) w = rangeList fn rest (fn p.1 p.2 w).2 := by
          simp [rangeList, hb]
        rw [hstep, h6]
        rfl
      · intro i c hi
        cases i with
        | zero =>
          have hc : c = ⟨p.1, p.2, true⟩ := by simpa using hi.symm
          rw [hc]
          exact hb.symm
        | succ j =>
          have hj : vs[j]? = some c := by simpa using hi
          exact h7 j c hj

/-- C9: `Get(id)` after `Add(s)`, for a session `s` with identifier `id`,
returns `s`, whatever the registry held under `id` before; `Get(id)` after
`Remove(id)` returns nil. -/
theorem get_after_add_remove {S : Type} [SessionLike S] (m : Manager S) :
    (∀ s : S, (m.Add (some s)).Get (SessionLike.ID s) = some s) ∧
    (∀ id : String, (m.Remove id).Get id = none) := by
  refine ⟨fun s => ?_, fun id => ?_⟩
  · simp [Manager.Add, Manager.Get, SyncMap.Store, SyncMap.Load]
  · have hnone : ((m.Remove id).Sessions.Load id) = none := by
      simp [Manager.Remove, SyncMap.Delete, SyncMap.Load]
    unfold Manager.Get
    rw [hnone]

/-- Witness of C9: a second session stored under `a` replaces the first, and
after `Remove` the identifier is not found. -/
theorem get_after_add_remove_witness :
    (demoManager.Add (some sessA2)).Get "a" = some sessA2 ∧
      (demoManager.Remove "a").Get "a" = none :=
  ⟨(get_after_add_remove demoManager).1 sessA2, (get_after_add_remove demoManager).2 "a"⟩

/-- C10: `Range(fn)` calls `fn` on entries of the registry with pairwise
different identifiers, each call with the identifier and the session of one
entry: the calls are the entries in the order of the walk, from the first one
on, and a registry with an entry gets a call. Every call but the last returned
true, and the walk stops only at the end or after a call that returned false:
if every call returned true, every entry was visited, once. Each call is made
on the world the calls before it left, and the world after the last call is
what `Range(fn)` yields. So if `fn` always returns true the calls are the
entries, one call each; and if `fn` returns false on its first call, that call
is made and is the only one. -/
theorem range_visits {S σ : Type} (m : Manager S) (fn : String → S → σ → Bool × σ) (w : σ) :
    (m.Range (traced fn) (w, [])).1 = m.Range fn w ∧
    ((m.Range (traced fn) (w, [])).2.map Visit.id).Nodup ∧
    (∀ c ∈ (m.Range (traced fn) (w, [])).2, m.Get c.id = some c.sess) ∧
    (∀ c ∈ (m.Range (traced fn) (w, [])).2.dropLast, c.next = true) ∧
    ((∀ (id : String) (s : S) (w1 : σ), (fn id s w1).1 = true) →
      (m.Range (traced fn) (w, [])).2.map (fun c => (c.id, c.sess)) = m.Sessions.entries) ∧
    (∀ c, (m.Range (traced fn) (w, [])).2.head? = some c → c.next = false →
      (m.Range (traced fn) (w, [])).2 = [c]) ∧
    (∃ rest, (m.Range (traced fn) (w, [])).2.map (fun c => (c.id, c.sess)) ++ rest
      = m.Sessions.entries) ∧
    (m.Sessions.entries ≠ [] → (m.Range (traced fn) (w, [])).2 ≠ []) ∧
    ((∀ c ∈ (m.Range (traced fn) (w, [])).2, c.next = true) →
      (m.Range (traced fn) (w, [])).2.map (fun c => (c.id, c.sess)) = m.Sessions.entries) ∧
    (∀ (i : Nat) (c : Visit S), (m.Range (traced fn) (w, [])).2[i]? = some c →
      c.next = (fn c.id c.sess (worldAfter fn ((m.Range (traced fn) (w, [])).2.take i) w)).1) ∧
    m.Range fn w = worldAfter fn (m.Range (traced fn) (w, [])).2 w ∧
    (∀ (id : String) (s : S) (rest : List (String × S)),
      m.Sessions.entries = (id, s) :: rest → (fn id s w).1 = false →
      (m.Range (traced fn) (w, [])).2 = [⟨id, s, false⟩] ∧ m.Range fn w = (fn id s w).2) := by
  obtain ⟨vs, h1, ⟨tl, h2⟩, h3, h4, h5, h6, h7⟩ := rangeList_traced fn m.Sessions.entries w []
  have hrun : m.Range (traced fn) (w, []) = (m.Range fn w, vs) := by
    unfold Manager.Range SyncMap.Range
    rw [h1]
    rfl
  have hworld : m.Range fn w = worldAfter fn vs w := h6
  rw [hrun]
  have hkeys : vs.map Visit.id ++ tl.map Prod.fst = m.Sessions.entries.map Prod.fst := by
    rw [← h2, List.map_append, List.map_map]
    rfl
  have hnd := m.Sessions.nodup
  rw [← hkeys] at hnd
  have hne : m.Sessions.entries ≠ [] → vs ≠ [] := by
    intro hent hvs
    apply hent
    rw [← h4 (by rw [hvs]; intro c hc; cases hc), hvs]
    rfl
  refine ⟨rfl, (List.nodup_append.mp hnd).1, ?_, h3, ?_, ?_, ⟨tl, h2⟩, hne, h4, h7, hworld, ?_⟩
  · intro c hc
    have hmem : (c.id, c.sess) ∈ m.Sessions.entries := by
      rw [← h2]
      exact List.mem_append_left _ (List.mem_map.mpr ⟨c, hc, rfl⟩)
    have hf := find_of_mem_of_nodup m.Sessions.entries c.id c.sess m.Sessions.nodup hmem
    unfold Manager.Get SyncMap.Load
    rw [hf]
    rfl
  · intro hall
    apply h4
    intro c hc
    obtain ⟨w1, hw1⟩ := h5 c hc
    rw [hw1]
    exact hall c.id c.sess w1
  · intro c hhead hfalse
    cases vs with
    | nil => cases hhead
    | cons v vs2 =>
      have hv : v = c := by simpa using hhead
      subst hv
      cases vs2 with
      | nil => rfl
      | cons v2 vs3 =>
        have := h3 v (by rw [List.dropLast_cons₂]; exact List.mem_cons_self _ _)
        rw [this] at hfalse
        cases hfalse
  · intro id s rest hent hfalse
    cases vs with
    | nil => exact absurd rfl (hne (by rw [hent]; exact List.cons_ne_nil _ _))
    | cons v vs2 =>
      have hpair : (v.id, v.sess) = (id, s) := by
        rw [hent] at h2
        simp only [List.map_cons, List.cons_append] at h2
        exact (List.cons.inj h2).1
      have hid : v.id = id := (Prod.mk.inj hpair).1
      have hs : v.sess = s := (Prod.mk.inj hpair).2
      have hnext : v.next = false := by
        have := h7 0 v (by simp)
        rw [this, hid, hs]
        exact hfalse
      have hv : v = ⟨id, s, false⟩ := by
        cases v
        simp only [Visit.mk.injEq]
        exact ⟨hid, hs, hnext⟩
      cases vs2 with
      | nil =>
        refine ⟨by rw [hv], ?_⟩
        rw [hworld, hv]
        rfl
      | cons v2 vs3 =>
        have := h3 v (by rw [List.dropLast_cons₂]; exact List.mem_cons_self _ _)
        rw [this] at hnext
        cases hnext

/-- Witness of C10: over the entries `a`, `b`, `c` a visitor that always goes
on is called three times, once for each entry; a visitor that always stops is
called once, on the first entry of the walk, and never again. -/
theorem range_visits_witness :
    (demoManager.Range (traced countAll) (0, [])).2
        = [⟨"c", sessC, true⟩, ⟨"b", sessB, true⟩, ⟨"a", sessA, true⟩] ∧
    demoManager.Range countAll 0 = 3 ∧
    (demoManager.Range (traced countStop) (0, [])).2 = [⟨"c", sessC, false⟩] ∧
    demoManager.Range countStop 0 = 1 ∧
    (demoManager.Range (traced countAll) (0, [])).2.map (fun c => (c.id, c.sess))
        = demoManager.Sessions.entries ∧
    ((demoManager.Range (traced countStop) (0, [])).2 = [⟨"c", sessC, false⟩] ∧
      demoManager.Range countStop 0 = (countStop "c" sessC 0).2) :=
  ⟨rfl, rfl, rfl, rfl,
    (range_visits demoManager countAll 0).2.2.2.2.1 (fun _ _ _ => rfl),
    (range_visits demoManager countStop 0).2.2.2.2.2.2.2.2.2.2.2 "c" sessC
      [("b", sessB), ("a", sessA)] rfl rfl⟩

/-! ## Datagram server -/

/-- C11, as the claim states it, fails: on a server that has entered serving
the first `Stop` returns and the second `Stop` panics, closing the closed
shutdown signal once more. -/
theorem stop_twice_panics :
    servingServer.conn = some ⟨false⟩ ∧ servingServer.accepting = Chan.fired ∧
      servingServer.Stop.1 = Outcome.returned none ∧
      servingServer.Stop.2.Stop.1 = Outcome.panicked "close of closed channel" := by
  decide

/-- C11, amended: on a server with a socket and an armed shutdown signal,
`Stop` fires the signal and closes the socket, returning what the socket's
`Close` returns; after any `Stop` the signal is fired; a `Stop` on a server
whose signal is fired panics on `close` and leaves the server as it is, the
signal still fired. -/
theorem stop_fires_once {π γ : Type} (t : UdpServer π γ) (c : UDPConn)
    (hconn : t.conn = some c) (harmed : t.stopped = Chan.armed) :
    t.Stop.1 = Outcome.returned c.Close.1 ∧
    t.Stop.2.stopped = Chan.fired ∧
    t.Stop.2.conn = some c.Close.2 ∧
    t.Stop.2.Stop.1 = Outcome.panicked "close of closed channel" ∧
    t.Stop.2.Stop.2 = t.Stop.2 := by
  have h1 : t.Stop = (Outcome.returned c.Close.1,
      { t with stopped := Chan.fired, conn := some c.Close.2 }) := by
    unfold UdpServer.Stop
    rw [harmed, hconn]
    rfl
  rw [h1]
  exact ⟨rfl, rfl, rfl, rfl, rfl⟩

/-- Witness of C11 amended: the serving server of the examples. -/
theorem stop_fires_once_witness :
    servingServer.Stop.1 = Outcome.returned (UDPConn.Close ⟨false⟩).1 ∧
    servingServer.Stop.2.stopped = Chan.fired ∧
    servingServer.Stop.2.conn = some (UDPConn.Close ⟨false⟩).2 ∧
    servingServer.Stop.2.Stop.1 = Outcome.panicked "close of closed channel" ∧
    servingServer.Stop.2.Stop.2 = servingServer.Stop.2 :=
  stop_fires_once servingServer ⟨false⟩ rfl rfl

/-- C12: `NewUdp(opt)` has the maximum buffer size 1024 when that of `opt` is
not positive and that of `opt` otherwise, so a positive one; the default packer
and codec where `opt` has nil and those of `opt` otherwise; and the read/write
buffer size of `opt`. -/
theorem newUdp_normalizes {π γ : Type} (opt : UdpOption π γ) :
    (NewUdp opt).maxBufferSize = (if opt.MaxBufferSize ≤ 0 then 1024 else opt.MaxBufferSize) ∧
    0 < (NewUdp opt).maxBufferSize ∧
    (NewUdp opt).msgPacker = (match opt.MsgPacker with
      | none => some Packer.DefaultPacker
      | some p => some p) ∧
    (NewUdp opt).msgCodec = (match opt.MsgCodec with
      | none => some Codec.StringCodec
      | some c => some c) ∧
    (NewUdp opt).rwBufferSize = opt.RWBufferSize := by
  obtain ⟨mb, rw, pk, cd⟩ := opt
  have hmax : (NewUdp (⟨mb, rw, pk, cd⟩ : UdpOption π γ)).maxBufferSize
      = (if mb ≤ 0 then 1024 else mb) := by
    unfold NewUdp
    cases pk <;> cases cd <;> by_cases h : mb ≤ 0 <;> simp [h]
  refine ⟨hmax, ?_, ?_, ?_, ?_⟩
  · rw [hmax]
    by_cases h : mb ≤ 0
    · simp [h]
    · simp only [h, if_false]
      omega
  · unfold NewUdp
    cases pk <;> cases cd <;> by_cases h : mb ≤ 0 <;> simp [h]
  · unfold NewUdp
    cases pk <;> cases cd <;> by_cases h : mb ≤ 0 <;> simp [h]
  · unfold NewUdp
    cases pk <;> cases cd <;> by_cases h : mb ≤ 0 <;> simp [h]

/-- C13 on the code: the task started for the datagram `1 2 3` is handed
`buff[:3]`, which reads `1 2 3` until the loop reads the next datagram `9 9`
into the same buffer, and `9 9 3` from then on. -/
theorem task_bytes_overwritten :
    ((smallServer.acceptLoop [ReadResult.datagram [1, 2, 3] 10]).2.2.msgOf 0
        = some [1, 2, 3]) ∧
    ((smallServer.acceptLoop
        [ReadResult.datagram [1, 2, 3] 10, ReadResult.datagram [9, 9] 11]).2.2.msgOf 0
        = some [9, 9, 3]) := by
  constructor <;> rfl

/-- C14 on the code: with a session whose `ReadIncomingMsg` fails,
`handleIncomingMsg` returns after the read, and the only later call is the
deferred trace line: `Close` is not called. When the read succeeds, `Write` and
`Close` follow. -/
theorem close_skipped_on_read_error :
    servingServer.handleIncomingMsg (recordingSession (some "unpack failed")) [1, 2, 3] []
        = [SessCall.loopStarted, SessCall.read [1, 2, 3], SessCall.tracedClosed] ∧
    servingServer.handleIncomingMsg (recordingSession none) [1, 2, 3] []
        = [SessCall.loopStarted, SessCall.read [1, 2, 3], SessCall.write, SessCall.close,
            SessCall.tracedClosed] := by
  constructor <;> rfl

/-! ## Session registry: no-ops and the singleton -/

theorem filter_ne_of_find_none {κ ν : Type} [DecidableEq κ] (l : List (κ × ν)) (k : κ)
    (h : l.find? (fun p => decide (p.1 = k)) = none) :
    l.filter (fun p => decide (p.1 ≠ k)) = l := by
  rw [List.filter_eq_self]
  intro p hp
  have := List.find?_eq_none.mp h p hp
  simpa using this

/-- C15: `Add(nil)` returns the registry as it was; `Remove(id)` for an `id`
without entry leaves the entries as they were; after either call `Get` answers
for every identifier what it answered before. Both are total: neither fails. -/
theorem add_nil_remove_absent {S : Type} [SessionLike S] (m : Manager S) :
    m.Add none = m ∧
    (∀ id2 : String, (m.Add none).Get id2 = m.Get id2) ∧
    (∀ id : String, m.Get id = none →
      (m.Remove id).Sessions.entries = m.Sessions.entries ∧
      ∀ id2 : String, (m.Remove id).Get id2 = m.Get id2) := by
  refine ⟨rfl, fun _ => rfl, fun id hid => ?_⟩
  have hfind : m.Sessions.entries.find? (fun p => decide (p.1 = id)) = none := by
    unfold Manager.Get SyncMap.Load at hid
    cases hf : m.Sessions.entries.find? (fun p => decide (p.1 = id)) with
    | none => rfl
    | some q => rw [hf] at hid; cases hid
  have hent : (m.Remove id).Sessions.entries = m.Sessions.entries :=
    filter_ne_of_find_none m.Sessions.entries id hfind
  refine ⟨hent, fun id2 => ?_⟩
  unfold Manager.Get SyncMap.Load
  rw [hent]

/-- Witness of C15: the registry `a`, `b`, `c` has no entry `z`. -/
theorem add_nil_remove_absent_witness :
    (demoManager.Remove "z").Sessions.entries = demoManager.Sessions.entries ∧
      ∀ id2 : String, (demoManager.Remove "z").Get id2 = demoManager.Get id2 :=
  (add_nil_remove_absent demoManager).2.2 "z" rfl

theorem onceDo_of_done {S : Type} (g : Globals S) (h : g.managerOnce = true) : onceDo g = g := by
  unfold onceDo
  rw [if_pos h]

theorem singletonInv_init {S : Type} (n : Nat) :
    SingletonInv ((initGlobals, List.replicate n Caller.calling) : Globals S × List Caller) := by
  refine ⟨fun _ => ⟨rfl, rfl, fun c hc => (List.mem_replicate.mp hc).2⟩, fun h => ?_, ?_⟩
  · cases h
  · intro c hc p hp
    rw [(List.mem_replicate.mp hc).2] at hp
    cases hp

theorem singletonInv_set {S : Type} (g g1 : Globals S) (cs : List Caller) (i : Nat)
    (c1 : Caller) (h : SingletonInv (g, cs))
    (hg : g1 = g ∨ (g.managerOnce = false ∧ g1 = onceDo g))
    (hdone : g1.managerOnce = true)
    (hc : ∀ p, c1 = Caller.returned p → p = some 0) :
    SingletonInv (g1, cs.set i c1) := by
  obtain ⟨h1, h2, h3⟩ := h
  refine ⟨fun hf => ?_, fun _ => ?_, ?_⟩
  · rw [show (g1, cs.set i c1).1.managerOnce = g1.managerOnce from rfl, hdone] at hf
    cases hf
  · show g1.manager = some 0 ∧ g1.heap.length = 1
    rcases hg with hg | ⟨hf, hg⟩
    · rw [hg] at hdone ⊢
      exact h2 hdone
    · have hheap : g.heap = [] := (h1 hf).2.1
      rw [hg]
      unfold onceDo
      rw [hf, hheap]
      exact ⟨rfl, rfl⟩
  · intro c hcm p hp
    rcases List.mem_or_eq_of_mem_set hcm with hm | hm
    · exact h3 c hm p hp
    · rw [hm] at hp
      exact hc p hp

theorem runAction_call {S : Type} (g : Globals S) (cs : List Caller) (i : Nat) (c : Caller)
    (hc : cs[i]? = some c) :
    runAction (g, cs) (Action.call i) = ((c.step g).1, cs.set i (c.step g).2) := by
  unfold runAction
  simp only [hc]

theorem runAction_call_none {S : Type} (g : Globals S) (cs : List Caller) (i : Nat)
    (hc : cs[i]? = none) : runAction (g, cs) (Action.call i) = (g, cs) := by
  unfold runAction
  simp only [hc]

theorem singletonInv_step {S : Type} (st : Globals S × List Caller) (a : Action S)
    (h : SingletonInv st) : SingletonInv (runAction st a) := by
  obtain ⟨g, cs⟩ := st
  cases a with
  | update p f =>
    obtain ⟨h1, h2, h3⟩ := h
    refine ⟨fun hf => ?_, fun ht => ?_, h3⟩
    · obtain ⟨a1, a2, a3⟩ := h1 hf
      refine ⟨a1, ?_, a3⟩
      show g.heap.modify f p = []
      rw [show g.heap = [] from a2]
      exact List.modify_nil f p
    · obtain ⟨b1, b2⟩ := h2 ht
      refine ⟨b1, ?_⟩
      show (g.heap.modify f p).length = 1
      rw [List.length_modify]
      exact b2
  | call i =>
    cases hc : cs[i]? with
    | none => rw [runAction_call_none g cs i hc]; exact h
    | some c =>
      rw [runAction_call g cs i c hc]
      have hmem : c ∈ cs := List.getElem?_mem hc
      have hpast : c ≠ Caller.calling → g.managerOnce = true := by
        intro hne
        cases hd : g.managerOnce with
        | true => rfl
        | false => exact absurd (h.1 hd).2.2 (fun hall => hne (hall c hmem))
      cases c with
      | calling =>
        refine singletonInv_set g (onceDo g) cs i Caller.returning h ?_ ?_ ?_
        · cases hd : g.managerOnce with
          | true => exact Or.inl (onceDo_of_done g hd)
          | false => exact Or.inr ⟨rfl, rfl⟩
        · cases hd : g.managerOnce with
          | true => rw [onceDo_of_done g hd]; exact hd
          | false => simp [onceDo, hd]
        · intro p hp; cases hp
      | returning =>
        have hd : g.managerOnce = true := hpast (by intro hx; cases hx)
        refine singletonInv_set g g cs i (Caller.returned g.manager) h (Or.inl rfl) hd ?_
        intro p hp
        cases hp
        exact (h.2.1 hd).1
      | returned q =>
        have hd : g.managerOnce = true := hpast (by intro hx; cases hx)
        refine singletonInv_set g g cs i (Caller.returned q) h (Or.inl rfl) hd ?_
        intro p hp
        exact h.2.2 _ hmem p hp

theorem singletonInv_run {S : Type} (sched : List (Action S)) :
    ∀ (st : Globals S × List Caller), SingletonInv st → SingletonInv (runSchedule sched st) := by
  induction sched with
  | nil => intro st h; exact h
  | cons a rest ih =>
    intro st h
    exact ih (runAction st a) (singletonInv_step st a h)

theorem rank_step {S : Type} (st : Globals S × List Caller) (a : Action S) (i : Nat)
    (c0 : Caller) (h : st.2[i]? = some c0) :
    ∃ c, (runAction st a).2[i]? = some c ∧
      c.rank = min 2 (c0.rank + (if Action.isCallOf i a then 1 else 0)) := by
  obtain ⟨g, cs⟩ := st
  have hr : c0.rank ≤ 2 := by cases c0 <;> simp [Caller.rank]
  cases a with
  | update p f =>
    refine ⟨c0, h, ?_⟩
    simp only [Action.isCallOf]
    simp only [Bool.false_eq_true, if_false, Nat.add_zero]
    omega
  | call j =>
    by_cases hji : j = i
    · subst hji
      rw [runAction_call g cs j c0 h]
      have hlt : j < cs.length := (List.getElem?_eq_some.mp h).1
      refine ⟨(c0.step g).2, List.getElem?_set_self hlt, ?_⟩
      simp only [Action.isCallOf, decide_True, if_true]
      cases c0 <;> simp [Caller.step, Caller.rank]
    · have hiso : Action.isCallOf i (Action.call j : Action S) = false := by
        simp [Action.isCallOf, hji]
      rw [hiso]
      simp only [Bool.false_eq_true, if_false, Nat.add_zero]
      cases hc : cs[j]? with
      | none =>
        rw [runAction_call_none g cs j hc]
        exact ⟨c0, h, by omega⟩
      | some c =>
        rw [runAction_call g cs j c hc]
        refine ⟨c0, ?_, by omega⟩
        show (cs.set j (c.step g).2)[i]? = some c0
        rw [List.getElem?_set_ne hji]
        exact h

theorem rank_run {S : Type} (sched : List (Action S)) (i : Nat) :
    ∀ (st : Globals S × List Caller) (c0 : Caller), st.2[i]? = some c0 →
      ∃ c, (runSchedule sched st).2[i]? = some c ∧
        c.rank = min 2 (c0.rank + callSteps i sched) := by
  induction sched with
  | nil =>
    intro st c0 h
    have hr : c0.rank ≤ 2 := by cases c0 <;> simp [Caller.rank]
    exact ⟨c0, h, by simp only [callSteps, List.countP_nil]; omega⟩
  | cons a rest ih =>
    intro st c0 h
    obtain ⟨c1, h1, hr1⟩ := rank_step st a i c0 h
    obtain ⟨c, h2, hr2⟩ := ih (runAction st a) c1 h1
    refine ⟨c, h2, ?_⟩
    have hcount : callSteps i (a :: rest)
        = callSteps i rest + (if Action.isCallOf i a then 1 else 0) := by
      unfold callSteps
      rw [List.countP_cons]
    rw [hr2, hr1, hcount]
    by_cases hx : Action.isCallOf i a = true
    · simp only [hx, if_true]; omega
    · simp only [hx]
      simp only [Bool.false_eq_true, if_false]
      omega

/-- C16: a call of `Sessions` is the two steps of a task taken in one piece; on
first use it allocates one empty `Manager` and returns the pointer to it.
However the steps of `n` tasks calling `Sessions` interleave, among themselves
and with registry operations made through the pointers already handed out,
every task that has had its two steps is back, every task that is back has the
same pointer, the one `Manager` allocated; no second `Manager` is ever
allocated; and once the first `Do` is over a call of `Sessions`, in one piece
or step by step, leaves the package variables and the registry as they are and
returns that pointer. -/
theorem sessions_singleton {S : Type} (n : Nat) (sched : List (Action S)) :
    (∀ (i : Nat) (p : Option Nat),
      (runSchedule sched (initGlobals, List.replicate n Caller.calling)).2[i]?
          = some (Caller.returned p) →
        p = some 0 ∧
        (runSchedule sched (initGlobals, List.replicate n Caller.calling)).1.manager = some 0 ∧
        (runSchedule sched (initGlobals, List.replicate n Caller.calling)).1.heap.length = 1) ∧
    (runSchedule sched (initGlobals, List.replicate n Caller.calling)).1.heap.length ≤ 1 ∧
    (∀ g : Globals S, g.managerOnce = true →
      Sessions g = (g.manager, g) ∧ ∀ c : Caller, (Caller.step g c).1 = g) ∧
    (∀ g : Globals S, (Sessions g).2.managerOnce = true ∧
      Sessions (Sessions g).2 = Sessions g) ∧
    (∀ g : Globals S,
      Caller.step (Caller.step g Caller.calling).1 (Caller.step g Caller.calling).2
        = ((Sessions g).2, Caller.returned (Sessions g).1)) ∧
    (∀ g : Globals S, g.managerOnce = false →
      Sessions g = (some g.heap.length,
        { managerOnce := true, manager := some g.heap.length,
          heap := g.heap ++ [⟨SyncMap.empty⟩] })) ∧
    Sessions (initGlobals : Globals S)
      = (some 0, { managerOnce := true, manager := some 0, heap := [⟨SyncMap.empty⟩] }) ∧
    (∀ i : Nat, i < n → 2 ≤ callSteps i sched →
      (runSchedule sched (initGlobals, List.replicate n Caller.calling)).2[i]?
        = some (Caller.returned (some 0))) := by
  have hinv := singletonInv_run sched _ (@singletonInv_init S n)
  obtain ⟨h1, h2, h3⟩ := hinv
  have hframe : ∀ g : Globals S, g.managerOnce = true →
      Sessions g = (g.manager, g) ∧ ∀ c : Caller, (Caller.step g c).1 = g := by
    intro g hg
    have ho := onceDo_of_done g hg
    refine ⟨by unfold Sessions; rw [ho], fun c => ?_⟩
    cases c with
    | calling => exact ho
    | returning => rfl
    | returned q => rfl
  have hdone : ∀ g : Globals S, (Sessions g).2.managerOnce = true := by
    intro g
    cases hg : g.managerOnce with
    | true => rw [(hframe g hg).1]; exact hg
    | false => simp [Sessions, onceDo, hg]
  have hfirst : ∀ g : Globals S, g.managerOnce = false →
      Sessions g = (some g.heap.length,
        { managerOnce := true, manager := some g.heap.length,
          heap := g.heap ++ [⟨SyncMap.empty⟩] }) := by
    intro g hg
    unfold Sessions onceDo
    simp [hg]
  refine ⟨fun i p hi => ?_, ?_, hframe, fun g => ⟨hdone g, ?_⟩, fun g => rfl, hfirst,
    hfirst initGlobals rfl, fun i hi hsteps => ?_⟩
  · have hp := h3 _ (List.getElem?_mem hi) p rfl
    have hd : (runSchedule sched (initGlobals, List.replicate n Caller.calling)).1.managerOnce
        = true := by
      cases hd : (runSchedule sched
          (initGlobals, List.replicate n Caller.calling)).1.managerOnce with
      | true => rfl
      | false =>
        have := (h1 hd).2.2 _ (List.getElem?_mem hi)
        cases this
    exact ⟨hp, (h2 hd).1, (h2 hd).2⟩
  · cases hd : (runSchedule sched
        (initGlobals, List.replicate n Caller.calling)).1.managerOnce with
    | true => rw [(h2 hd).2]
    | false => rw [(h1 hd).2.1]; exact Nat.zero_le _
  · have := (hframe (Sessions g).2 (hdone g)).1
    rw [this]
    rfl
  · obtain ⟨c, hc, hrank⟩ := rank_run sched i
      ((initGlobals, List.replicate n Caller.calling) : Globals S × List Caller)
      Caller.calling (List.getElem?_replicate_of_lt hi)
    have hr2 : c.rank = 2 := by
      rw [hrank]
      simp only [Caller.rank]
      omega
    cases c with
    | calling => simp [Caller.rank] at hr2
    | returning => simp [Caller.rank] at hr2
    | returned p =>
      rw [hc, h3 _ (List.getElem?_mem hc) p rfl]

/-- Witness of C16: a first call of `Sessions` returns the pointer 0 to the one
registry, and so does a second; three racing tasks all come back with the
pointer 0, and the session added through it in between is still in the one
registry. -/
theorem sessions_singleton_witness :
    (Sessions (initGlobals : Globals DemoSession)).1 = some 0 ∧
    (Sessions (Sessions (initGlobals : Globals DemoSession)).2).1 = some 0 ∧
    (runSchedule demoSchedule (initGlobals, List.replicate 3 Caller.calling)).2
        = [Caller.returned (some 0), Caller.returned (some 0), Caller.returned (some 0)] ∧
    (runSchedule demoSchedule (initGlobals, List.replicate 3 Caller.calling)).2[1]?
        = some (Caller.returned (some 0)) ∧
    (runSchedule demoSchedule (initGlobals, List.replicate 3 Caller.calling)).1.heap.map
        (fun m => m.Get "a") = [some sessA] ∧
    (runSchedule demoSchedule (initGlobals, List.replicate 3 Caller.calling)).1.heap.length = 1 :=
  ⟨congrArg Prod.fst (sessions_singleton 3 demoSchedule).2.2.2.2.2.2.1,
    rfl, rfl,
    (sessions_singleton 3 demoSchedule).2.2.2.2.2.2.2 1 (by decide) (by decide),
    rfl, ((sessions_singleton 3 demoSchedule).1 2 (some 0) rfl).2.2⟩

/-! ## The router tables across dispatch and registration -/

theorem handleRequest_router {ι σ : Type} (g : Nat → Nat → Nat) (r : Router ι σ)
    (ctx : routeContext ι) (w : σ) :
    (r.handleRequest g ctx w).2.handlerMapper = r.handlerMapper ∧
    (r.handleRequest g ctx w).2.middlewaresMapper = r.middlewaresMapper ∧
    (r.handleRequest g ctx w).2.globalMiddlewares.elems = r.globalMiddlewares.elems ∧
    (r.handleRequest g ctx w).2.notFoundHandler = r.notFoundHandler := by
  unfold Router.handleRequest
  cases hctx : ctx.reqEntry with
  | none => exact ⟨rfl, rfl, rfl, rfl⟩
  | some e =>
    cases hm : r.middlewaresMapper e.ID with
    | none => simp [hm]
    | some v => simp [hm, goAppend_alias_elems]

theorem handleRequest_congr {ι σ : Type} (g : Nat → Nat → Nat) (r1 r2 : Router ι σ)
    (ctx : routeContext ι) (w : σ) (hh : r1.handlerMapper = r2.handlerMapper)
    (hm : r1.middlewaresMapper = r2.middlewaresMapper)
    (hg : r1.globalMiddlewares.elems = r2.globalMiddlewares.elems)
    (hn : r1.notFoundHandler = r2.notFoundHandler) :
    (r1.handleRequest g ctx w).1 = (r2.handleRequest g ctx w).1 := by
  cases hctx : ctx.reqEntry with
  | none =>
    rw [show r1.handleRequest g ctx w = ((none, w), r1) by
          unfold Router.handleRequest; rw [hctx],
        show r2.handleRequest g ctx w = ((none, w), r2) by
          unfold Router.handleRequest; rw [hctx]]
  | some e =>
    rw [handleRequest_eq_runChain g r1 ctx e w hctx, handleRequest_eq_runChain g r2 ctx e w hctx]
    unfold Router.middlewaresOf
    rw [hh, hm, hg, hn]

/-- C17: after `handleRequest` the handler table, the per-identifier middleware
table and the not-found handler are what they were, and the global middleware
list has the same elements in the same order and the same length (what `append`
wrote lies beyond its length); so any dispatch against the router after the
call gives what it gives against the router before the call. -/
theorem handleRequest_readonly {ι σ : Type} (growCap : Nat → Nat → Nat) (r : Router ι σ)
    (ctx : routeContext ι) (w : σ) :
    (r.handleRequest growCap ctx w).2.handlerMapper = r.handlerMapper ∧
    (r.handleRequest growCap ctx w).2.middlewaresMapper = r.middlewaresMapper ∧
    (r.handleRequest growCap ctx w).2.globalMiddlewares.elems = r.globalMiddlewares.elems ∧
    (r.handleRequest growCap ctx w).2.globalMiddlewares.len = r.globalMiddlewares.len ∧
    (r.handleRequest growCap ctx w).2.notFoundHandler = r.notFoundHandler ∧
    (∀ (ctx2 : routeContext ι) (w2 : σ),
      ((r.handleRequest growCap ctx w).2.handleRequest growCap ctx2 w2).1
        = (r.handleRequest growCap ctx2 w2).1) := by
  obtain ⟨h1, h2, h3, h4⟩ := handleRequest_router growCap r ctx w
  refine ⟨h1, h2, h3, ?_, h4, fun ctx2 w2 => handleRequest_congr growCap _ r ctx2 w2 h1 h2 h3 h4⟩
  unfold Slice.len
  rw [h3]

/-- An instance of C17 where `append` does write into the backing array of the
global slice: the spare cell is filled by the dispatch for identifier 7, and a
later dispatch for identifier 8 still runs the three global middlewares only. -/
theorem handleRequest_readonly_witness :
    spareRouter.globalMiddlewares.spare.map Option.isSome = [false] ∧
    (spareRouter.handleRequest demoGrow (demoCtx 7) []).2.globalMiddlewares.spare.map
        Option.isSome = [true] ∧
    (spareRouter.handleRequest demoGrow (demoCtx 7) []).2.globalMiddlewares.len = 3 ∧
    ((spareRouter.handleRequest demoGrow (demoCtx 7) []).2.handleRequest demoGrow
        (demoCtx 8) []).1
      = (none, [Event.enter 1, Event.enter 2, Event.enter 3,
          Event.leave 3, Event.leave 2, Event.leave 1]) :=
  ⟨rfl, rfl, (handleRequest_readonly demoGrow spareRouter (demoCtx 7) []).2.2.2.1,
    ((handleRequest_readonly demoGrow spareRouter (demoCtx 7) []).2.2.2.2.2 (demoCtx 8) []).trans
      rfl⟩

theorem register_frame_fields {ι σ : Type} [DecidableEq ι] (g : Nat → Nat → Nat)
    (r : Router ι σ) (id : ι) (h : Option (HandlerFunc ι σ))
    (m : List (Option (MiddlewareFunc ι σ))) :
    (r.register g id h m).globalMiddlewares = r.globalMiddlewares ∧
    (r.register g id h m).notFoundHandler = r.notFoundHandler := by
  unfold Router.register
  cases h <;> (simp only []; split <;> exact ⟨rfl, rfl⟩)

/-- C18: registering a handler `h2` for `id` with no middleware, or with nil
ones only, leaves the middlewares of `id` as they were; a dispatch for `id`
then runs `h2` inside the global middlewares and those earlier ones. -/
theorem reregister_keeps_middlewares {ι σ : Type} [DecidableEq ι] (growCap : Nat → Nat → Nat)
    (r : Router ι σ) (h2 : HandlerFunc ι σ) (ms2 : List (Option (MiddlewareFunc ι σ)))
    (ctx : routeContext ι) (e : Entry ι) (w : σ)
    (hnil : ms2.reduceOption = []) (hctx : ctx.reqEntry = some e) :
    (r.register growCap e.ID (some h2) ms2).middlewaresOf e.ID = r.middlewaresOf e.ID ∧
    (r.register growCap e.ID (some h2) ms2).handlerMapper e.ID = some h2 ∧
    ((r.register growCap e.ID (some h2) ms2).handleRequest growCap ctx w).1
      = runChain h2 (r.globalMiddlewares.elems ++ r.middlewaresOf e.ID) ctx w := by
  have hm := register_middlewaresMapper_of_eq growCap r e.ID (some h2) ms2 hnil
  have hh := register_handlerMapper growCap r e.ID (some h2) ms2
  simp only [] at hh
  obtain ⟨hg, _⟩ := register_frame_fields growCap r e.ID (some h2) ms2
  have hof : (r.register growCap e.ID (some h2) ms2).middlewaresOf e.ID = r.middlewaresOf e.ID := by
    unfold Router.middlewaresOf
    rw [hm]
  have hb : (r.register growCap e.ID (some h2) ms2).handlerMapper e.ID = some h2 := by
    rw [hh, Function.update_same]
  refine ⟨hof, hb, ?_⟩
  rw [handleRequest_eq_runChain growCap _ ctx e w hctx, hb, hof, hg]
  rfl

/-- Witness of C18: the new handler 5 for identifier 7 of `demoRouter` runs
inside the globals 1, 2 and the earlier middlewares 3, 4. -/
theorem reregister_keeps_middlewares_witness :
    ((demoRouter.register demoGrow 7 (some (recordHandler 5 none)) [none]).handleRequest
        demoGrow (demoCtx 7) []).1
      = (none, [Event.enter 1, Event.enter 2, Event.enter 3, Event.enter 4, Event.enter 5,
          Event.leave 5, Event.leave 4, Event.leave 3, Event.leave 2, Event.leave 1]) :=
  (reregister_keeps_middlewares demoGrow demoRouter (recordHandler 5 none) [none]
    (demoCtx 7) ⟨7, []⟩ [] rfl rfl).2.2.trans rfl

/-- C19: `register(id, h, ms...)` leaves the handler and the middlewares of
every other identifier, the global middlewares and the not-found handler as
they were; and of two registrations for `id` the handler of the second, when
not nil, is the one bound. -/
theorem register_frame {ι σ : Type} [DecidableEq ι] (growCap : Nat → Nat → Nat)
    (r : Router ι σ) (id id2 : ι) (h : Option (HandlerFunc ι σ))
    (ms : List (Option (MiddlewareFunc ι σ))) (hne : id2 ≠ id) :
    (r.register growCap id h ms).handlerMapper id2 = r.handlerMapper id2 ∧
    (r.register growCap id h ms).middlewaresMapper id2 = r.middlewaresMapper id2 ∧
    (r.register growCap id h ms).middlewaresOf id2 = r.middlewaresOf id2 ∧
    (r.register growCap id h ms).globalMiddlewares = r.globalMiddlewares ∧
    (r.register growCap id h ms).notFoundHandler = r.notFoundHandler ∧
    (∀ (h2 : HandlerFunc ι σ) (ms2 : List (Option (MiddlewareFunc ι σ))),
      ((r.register growCap id h ms).register growCap id (some h2) ms2).handlerMapper id
        = some h2) := by
  have hh := register_handlerMapper growCap r id h ms
  have hm : (r.register growCap id h ms).middlewaresMapper id2 = r.middlewaresMapper id2 := by
    by_cases hz : ms.reduceOption = []
    · rw [register_middlewaresMapper_of_eq growCap r id h ms hz]
    · rw [register_middlewaresMapper_of_ne growCap r id h ms hz, Function.update_noteq hne]
  obtain ⟨hg, hn⟩ := register_frame_fields growCap r id h ms
  refine ⟨?_, hm, ?_, hg, hn, fun h2 ms2 => ?_⟩
  · rw [hh]
    cases h with
    | none => rfl
    | some f => exact Function.update_noteq hne _ _
  · unfold Router.middlewaresOf
    rw [hm]
  · have := register_handlerMapper growCap (r.register growCap id h ms) id (some h2) ms2
    simp only [] at this
    rw [this, Function.update_same]

/-- Witness of C19: registering for identifier 8 leaves the middlewares 3, 4 of
identifier 7 in `demoRouter`. -/
theorem register_frame_witness :
    (demoRouter.register demoGrow 8 (some (recordHandler 6 none))
        [some (recordMiddleware 5)]).middlewaresOf 7
      = [recordMiddleware 3, recordMiddleware 4] :=
  (register_frame demoGrow demoRouter 8 7 (some (recordHandler 6 none))
    [some (recordMiddleware 5)] (by decide)).2.2.1.trans rfl

end EasyTcp
